import Mathlib

/-!
Verification of the chess-dashboard scrape/aggregation pipeline.

A shallow embedding of the data model and the pure data-transformation logic of
`chess_scraper.py` and `dashboard.py`.  Python dicts are modelled as insertion-ordered
association lists (`List (String × α)`): `dictInsert` is `d[k] = v` and `dictUpdate`
is `d.update(other)`.  Python floats that only ever hold sums of exact scraped values
and their quotients are modelled as rationals.  Network / browser fetches are modelled
by passing the fetched document (an `Option` of a structured page) as an argument:
`none` is the "no content after all retries" outcome of `fetch_page`.
-/

namespace ChessScraper

/-- Association-list lookup: the value bound at the first occurrence of `k`
(Python dict lookup; rosters and accumulators never bind a key twice). -/
def alookup {α : Type} (k : String) : List (String × α) → Option α
  | [] => none
  | (k1, v) :: rest => if k1 = k then some v else alookup k rest

/-- Python dict assignment `d[k] = v`: replace the value at the existing
occurrence of `k`, keeping its position, or append `(k, v)` if `k` is absent. -/
def dictInsert {α : Type} (m : List (String × α)) (k : String) (v : α) : List (String × α) :=
  match m with
  | [] => [(k, v)]
  | (k1, v1) :: rest => if k1 = k then (k1, v) :: rest else (k1, v1) :: dictInsert rest k v

/-- Python `d.update(other)`: apply each assignment of `other`, in order, to `d`. -/
def dictUpdate {α : Type} (old new : List (String × α)) : List (String × α) :=
  new.foldl (fun acc kv => dictInsert acc kv.1 kv.2) old

/-- Mean of a list of integer ratings, as an exact rational
(`sum(raw) / len(raw)` in the Python source). -/
def ratMean (l : List Int) : ℚ :=
  (l.sum : ℚ) / (l.length : ℚ)

/-! ## Data model (§3 of the spec, as built by `chess_scraper.py`) -/

/-- One roster entry: `{'name': ..., 'url': ...}` stored under a federation-local id. -/
structure PlayerRef where
  name : String
  url : String
deriving Repr, DecidableEq

/-- One match of a team, as appended by `scrape_team_page`. -/
structure MatchRec where
  date : String
  opponent : String
  location : String
  result : String
deriving Repr, DecidableEq

/-- The `team_data` dict built by `scrape_team_page` and merged by `run_scraper`.
`avg_opponent_rating` is only meaningful after the aggregation step that sets it
(the Python dict does not carry the key before then; here it carries `0`). -/
structure TeamData where
  name : String
  federation : String
  division_url : Option String
  match_points : ℚ
  board_points : ℚ
  players : List (String × PlayerRef)
  matchList : List MatchRec
  opponent_ratings_raw : List Int
  avg_opponent_rating : ℚ
deriving Repr, DecidableEq

/-- A team as listed on a competition page: `{'name', 'url', 'domain'}`. -/
structure TeamInstance where
  name : String
  url : String
  domain : String
deriving Repr, DecidableEq

/-- One row of a player's `Partijen` (games) table. -/
structure Game where
  round : String
  date : Option String
  opponent_name : String
  opponent_rating : Option Int
  result : String
  color : String
deriving Repr, DecidableEq

/-- The `player_data` dict built by `scrape_player_page`.  `federation_ids` does not
exist before aggregation; that state is modelled as the empty list. -/
structure PlayerData where
  federation_id : String
  universal_id : Option String
  name : String
  elo : Option Int
  tpr : Option Int
  w_we : Option ℚ
  games_played : Int
  wins : Int
  draws : Int
  losses : Int
  color_balance : Option Int
  color_distribution : String
  games : List Game
  total_score : ℚ
  opponent_ratings_raw : List Int
  avg_opponent_rating : ℚ
  historical_ratings : List (String × Int)
  federation_ids : List String
deriving Repr, DecidableEq

/-- The `division_data` dict built by `scrape_division_page`:
`teams` maps a team local id to its name, `players` maps a player local id
to its name and parsed ELO. -/
structure DivisionData where
  name : String
  federation : String
  teams : List (String × String)
  players : List (String × (String × Int))
deriving Repr, DecidableEq

/-- `BASE_URLS[domain_key]` (lower-case keys, as in the configuration table). -/
def baseUrl (domainKey : String) : String :=
  if domainKey = "knsb" then "https://knsb.netstand.nl"
  else if domainKey = "nosbo" then "https://nosbo.netstand.nl"
  else ""

/-! ## Historical-ratings extractor (`fetch_historical_ratings`)

The `moment` field of an API entry is an ISO date(-time) string; the code keeps the
part before `T` and parses it with `strptime('%Y-%m-%d')`.  That parsed value is
modelled directly as an optional calendar date: `none` stands for a missing or
unparsable `moment` (or a non-dict entry), which the code skips.  Python `datetime`
comparison is chronological; it is embedded as comparison of proleptic-Gregorian
day numbers (`toDays`, the standard civil-calendar day count). -/

/-- A calendar date as parsed from the date part of a `moment` string. -/
structure CivDate where
  year : Int
  month : Int
  day : Int
deriving Repr, DecidableEq

/-- Day number of a proleptic-Gregorian calendar date (days since 1970-01-01):
the embedding of Python `datetime` ordering. -/
def toDays (d : CivDate) : Int :=
  let y : Int := if d.month ≤ 2 then d.year - 1 else d.year
  let era : Int := (if 0 ≤ y then y else y - 399) / 400
  let yoe : Int := y - era * 400
  let mp : Int := (d.month + 9) % 12
  let doy : Int := (153 * mp + 2) / 5 + d.day - 1
  let doe : Int := yoe * 365 + yoe / 4 - yoe / 100 + doy
  era * 146097 + doe - 719468

/-- `start_date <= list_date <= end_date` with `start_date = today - timedelta(days=365)`. -/
def inWindow (today d : CivDate) : Prop :=
  toDays today - 365 ≤ toDays d ∧ toDays d ≤ toDays today

instance (today d : CivDate) : Decidable (inWindow today d) := by
  unfold inWindow; infer_instance

/-- Left-pad a numeral to two digits (`strftime` zero padding). -/
def pad2 (n : Nat) : String :=
  if n < 10 then "0" ++ toString n else toString n

/-- Left-pad a numeral to four digits (`strftime` zero padding). -/
def pad4 (n : Nat) : String :=
  if n < 10 then "000" ++ toString n
  else if n < 100 then "00" ++ toString n
  else if n < 1000 then "0" ++ toString n
  else toString n

/-- `list_date.strftime('%Y-%m')`: the calendar-month bucket key `YYYY-MM`. -/
def periodKey (d : CivDate) : String :=
  pad4 d.year.toNat ++ "-" ++ pad2 d.month.toNat

/-- One element of the ratingviewer JSON array.  `moment = none` models a missing or
unparsable timestamp (or a non-dict element); `rating = none` models a null rating. -/
structure RatingEntry where
  moment : Option CivDate
  rating : Option Int
deriving Repr, DecidableEq

/-- The body of the `for rating_entry in rating_list` loop: keep an in-window entry
under its month key only when that key is not yet present. -/
def histStep (today : CivDate) (acc : List (String × Int)) (e : RatingEntry) :
    List (String × Int) :=
  match e.moment with
  | none => acc
  | some d =>
    if inWindow today d then
      match e.rating with
      | some r => if (alookup (periodKey d) acc).isNone then acc ++ [(periodKey d, r)] else acc
      | none => acc
    else acc

/-- Code-point lexicographic order on character lists: Python string comparison. -/
def charListLtB : List Char → List Char → Bool
  | [], [] => false
  | [], _ :: _ => true
  | _ :: _, [] => false
  | c1 :: r1, c2 :: r2 => if c1 = c2 then charListLtB r1 r2 else decide (c1 < c2)

/-- `a < b` on strings, by code points (Python string comparison). -/
def strLtB (a b : String) : Bool :=
  charListLtB a.data b.data

/-- The sort order of `sorted(...)` on bucket items: ascending by key, where
`a` precedes `b` when the key of `b` is not lexicographically smaller. -/
def keyLe (a b : String × Int) : Prop :=
  strLtB b.1 a.1 = false

instance (a b : String × Int) : Decidable (keyLe a b) := by
  unfold keyLe
  infer_instance

/-- `sorted(historical_data.items())`: sort the buckets by their `YYYY-MM` key
(keys are distinct, so tuple order is key order; strings compare by code point). -/
def sortPairs (l : List (String × Int)) : List (String × Int) :=
  l.insertionSort keyLe

/-- `fetch_historical_ratings`: `resp = none` models a failed request
(`requests.exceptions.RequestException`), which yields the empty mapping. -/
def fetchHistoricalRatings (today : CivDate) (resp : Option (List RatingEntry)) :
    List (String × Int) :=
  match resp with
  | none => []
  | some entries => sortPairs (entries.foldl (histStep today) [])

/-! ## Pairing extractor (`_scrape_opponent_rating_from_pairings`) -/

/-- The structural landmarks of a pairing-results table, in the order the
extractor visits them: `tbodyLinks` holds the participant link texts of the
`tbody`, and is `none` when the table has no `tbody` at all - then the unguarded
`results_table.find('tbody').find_all(...)` raises an uncaught `AttributeError`;
`theadLinks` likewise holds the team link texts of the `thead`, `none` when there
is no `thead` (also an uncaught raise); `footerRatings` gives, for each
`Gemiddelde Rating:` footer label, the integer parsed from its sibling cell
(`none` when the sibling is absent or not an integer) - the whole `tfoot` lookup
sits inside `try/except`, so a missing `tfoot` behaves like an empty label list. -/
structure PairingTable where
  tbodyLinks : Option (List String)
  theadLinks : Option (List String)
  footerRatings : List (Option Int)
deriving Repr, DecidableEq

/-- A fetched pairing page; `resultsTable = none` when no `table-striped` table exists. -/
structure PairingDoc where
  resultsTable : Option PairingTable
deriving Repr, DecidableEq

/-- `_scrape_opponent_rating_from_pairings`: `.ok none` is the expected
non-erroring outcome on missing content, a missing results table, a ghost pairing
(all participants named `NN`), an unmatched opponent column, or a
missing/unparsable footer rating.  The `tbody` and `thead` lookups sit outside
the `try` block, so a results table lacking either raises an uncaught
`AttributeError`, modelled as `.error ()`. -/
def scrapeOppRatingFromPairings (doc : Option PairingDoc) (oppName : String) :
    Except Unit (Option Int) :=
  match doc with
  | none => .ok none
  | some d =>
    match d.resultsTable with
    | none => .ok none
    | some t =>
      match t.tbodyLinks with
      | none => .error ()
      | some participants =>
        if !participants.isEmpty && participants.all (fun s => s == "NN") then .ok none
        else
          match t.theadLinks with
          | none => .error ()
          | some headerTeams =>
            match headerTeams.findIdx? (fun s => s == oppName) with
            | none => .ok none
            | some i => .ok ((t.footerRatings.get? i).bind id)

/-! ## Team extractor (`scrape_team_page`) -/

/-- One row of the roster table, with the local id already split out of the
`/players/view/<id>` href (the trailing segment of the link). -/
structure RosterRow where
  playerId : String
  playerName : String
  href : String
deriving Repr, DecidableEq

/-- One row of the fixture table: its cell texts, the optional results link of the
fifth cell, and the pairing document obtained by fetching that link
(`none` when the fetch returned no content). -/
structure FixtureRow where
  cells : List String
  pairingHref : Option String
  pairingDoc : Option PairingDoc
deriving Repr, DecidableEq

/-- The structural landmarks of a team page: division back-link href, the parsed
`MP`/`BP` labelled values (absent label or failed parse gives `none`), the roster
table rows and the fixture table rows (`none` when the table is absent). -/
structure TeamPage where
  divisionHref : Option String
  mp : Option ℚ
  bp : Option ℚ
  rosterRows : Option (List RosterRow)
  fixtureRows : Option (List FixtureRow)
deriving Repr, DecidableEq

/-- The default `team_data` dict that `scrape_team_page` builds before parsing. -/
def defaultTeamData (inst : TeamInstance) : TeamData :=
  { name := inst.name, federation := inst.domain, division_url := none,
    match_points := 0, board_points := 0, players := [], matchList := [],
    opponent_ratings_raw := [], avg_opponent_rating := 0 }

/-- The opponent name of a fixture row: the away team when the home cell is this
team, else the home cell. -/
def oppNameOf (teamName : String) (row : FixtureRow) : String :=
  if row.cells.getD 2 "" = teamName then row.cells.getD 3 "" else row.cells.getD 2 ""

/-- Body of the fixture loop: a row is kept only when it has exactly five cells,
a results link, and a truthy (non-`None`, non-zero) opponent rating resolved from
its pairing page; then the rating and the match are appended together.  The
pairing call is unguarded, so an `AttributeError` raised there aborts the whole
loop (and with it `scrape_team_page`). -/
def fixtureStep (teamName : String) (acc : Except Unit (List MatchRec × List Int))
    (row : FixtureRow) : Except Unit (List MatchRec × List Int) :=
  match acc with
  | .error e => .error e
  | .ok acc =>
    if row.cells.length ≠ 5 then .ok acc
    else
      match row.pairingHref with
      | none => .ok acc
      | some _ =>
        let home := row.cells.getD 2 ""
        let oppName := oppNameOf teamName row
        match scrapeOppRatingFromPairings row.pairingDoc oppName with
        | .error e => .error e
        | .ok none => .ok acc
        | .ok (some r) =>
          if r = 0 then .ok acc
          else
            .ok (acc.1 ++ [{ date := row.cells.getD 1 "", opponent := oppName,
                             location := if home = teamName then "Home" else "Away",
                             result := row.cells.getD 4 "" }],
                 acc.2 ++ [r])

/-- `scrape_team_page`: `page = none` is the "fetch failed" outcome and yields the
default record unchanged (before any parsing, so nothing can raise there).  An
`AttributeError` raised inside the fixture loop is not caught anywhere in the
function and propagates to the caller, modelled as `.error ()`. -/
def scrapeTeamPage (inst : TeamInstance) (page : Option TeamPage) : Except Unit TeamData :=
  let td := defaultTeamData inst
  match page with
  | none => .ok td
  | some p =>
    let dk := inst.domain.toLower
    let td := { td with division_url := p.divisionHref.map (fun h => baseUrl dk ++ h) }
    let td := { td with match_points := p.mp.getD 0, board_points := p.bp.getD 0 }
    let td :=
      match p.rosterRows with
      | none => td
      | some rows =>
        { td with players := rows.foldl (fun m r =>
            dictInsert m r.playerId { name := r.playerName, url := baseUrl dk ++ r.href }) [] }
    match p.fixtureRows with
    | none => .ok td
    | some rows =>
      match rows.foldl (fixtureStep inst.name) (.ok ([], [])) with
      | .error e => .error e
      | .ok mr => .ok { td with matchList := mr.1, opponent_ratings_raw := mr.2 }

/-! ## Division extractor (`scrape_division_page`) -/

/-- One row of the division players table: local id, name, and the integer parsed
from the adjacent ELO cell (`none` when the cell is absent or not an integer). -/
structure DivisionPlayerRow where
  playerId : String
  playerName : String
  elo : Option Int
deriving Repr, DecidableEq

/-- The structural landmarks of a division page. -/
structure DivisionPage where
  header : Option String
  teamRows : Option (List (String × String))
  playerRows : Option (List DivisionPlayerRow)
deriving Repr, DecidableEq

/-- `scrape_division_page`; `page = none` yields the default record. -/
def scrapeDivisionPage (domainKey : String) (page : Option DivisionPage) : DivisionData :=
  let dd : DivisionData :=
    { name := "", federation := domainKey.toUpper, teams := [], players := [] }
  match page with
  | none => dd
  | some p =>
    let dd := { dd with name := p.header.getD "" }
    let dd :=
      match p.teamRows with
      | none => dd
      | some rows => { dd with teams := rows.foldl (fun m r => dictInsert m r.1 r.2) [] }
    match p.playerRows with
    | none => dd
    | some rows =>
      { dd with players := rows.foldl (fun m r =>
          match r.elo with
          | some e => dictInsert m r.playerId (r.playerName, e)
          | none => m) [] }

/-! ## Player extractor (`scrape_player_page`) -/

/-- One row of the games table: its cell texts, the start date scraped from the
linked round page (`none`: no link, failed fetch, or no date), and the rating
parsed out of the parenthesised part of the opponent cell. -/
structure GameRow where
  cells : List String
  roundDate : Option String
  opponentRating : Option Int
deriving Repr, DecidableEq

/-- The values of the `Statistieken` table after all numeric parses succeeded
(the Python `update` with the parsed dict is atomic: one failed parse raises and
none of these fields is set). -/
structure StatsVals where
  tpr : Option Int
  w_we : Option ℚ
  gamesPlayed : Int
  wins : Int
  draws : Int
  losses : Int
  colorBalance : Option Int
  colorDistribution : Option String
deriving Repr, DecidableEq

/-- The structural landmarks of a player page.
`ratingViewerLink`: `none` = no ratingviewer link; `some none` = link present but
the id regex failed (the raised error aborts the rest of that block, so the ELO is
then not parsed); `some (some uid)` = parsed universal id.
`stats`: `none` = no `Statistieken` section; `some none` = section found but a parse
failed; `some (some v)` = parsed values.  `apiResp` is the ratingviewer JSON body
fetched for the universal id (`none` = request failed). -/
structure PlayerPage where
  displayName : Option String
  ratingViewerLink : Option (Option String)
  eloVal : Option Int
  stats : Option (Option StatsVals)
  gameRows : Option (List GameRow)
  apiResp : Option (List RatingEntry)
deriving Repr, DecidableEq

/-- The default `player_data` dict that `scrape_player_page` builds before parsing. -/
def defaultPlayerData (federationId : String) : PlayerData :=
  { federation_id := federationId, universal_id := none, name := "", elo := none,
    tpr := none, w_we := none, games_played := 0, wins := 0, draws := 0, losses := 0,
    color_balance := none, color_distribution := "", games := [],
    total_score := 0, opponent_ratings_raw := [], avg_opponent_rating := 0,
    historical_ratings := [], federation_ids := [] }

/-- `if rating_label: player_data['elo'] = ...` -/
def applyElo (pd : PlayerData) (e : Option Int) : PlayerData :=
  match e with
  | some v => { pd with elo := some v }
  | none => pd

/-- The `player_data.update({...})` of the statistics block plus the colour row. -/
def applyStats (pd : PlayerData) (sv : StatsVals) : PlayerData :=
  { pd with tpr := sv.tpr, w_we := sv.w_we, games_played := sv.gamesPlayed,
            wins := sv.wins, draws := sv.draws, losses := sv.losses,
            color_balance := sv.colorBalance,
            color_distribution := sv.colorDistribution.getD pd.color_distribution }

/-- Body of the games loop: rows with fewer than three cells are skipped; the game
is appended; a truthy (non-`None`, non-zero) opponent rating is appended to the raw
list; the result code `1` and the half-point code add to `total_score`. -/
def gameStep (pd : PlayerData) (row : GameRow) : PlayerData :=
  if row.cells.length < 3 then pd
  else
    let oppText := row.cells.getD 1 ""
    let g : Game :=
      { round := row.cells.getD 0 "", date := row.roundDate,
        opponent_name := ((oppText.splitOn "(").headD "").trim,
        opponent_rating := row.opponentRating,
        result := row.cells.getD 2 "",
        color := row.cells.getD 3 "N/A" }
    let pd := { pd with games := pd.games ++ [g] }
    let pd :=
      match g.opponent_rating with
      | some r =>
        if r = 0 then pd
        else { pd with opponent_ratings_raw := pd.opponent_ratings_raw ++ [r] }
      | none => pd
    if g.result = "1" then { pd with total_score := pd.total_score + 1 }
    else if g.result = "½" then { pd with total_score := pd.total_score + 1/2 }
    else pd

/-- `scrape_player_page`: `page = none` is the "fetch failed" outcome and yields
the default record unchanged. -/
def scrapePlayerPage (today : CivDate) (federationId : String) (page : Option PlayerPage) :
    PlayerData :=
  let pd := defaultPlayerData federationId
  match page with
  | none => pd
  | some p =>
    let pd :=
      match p.displayName with
      | none => pd
      | some nm =>
        let pd := { pd with name := nm }
        match p.ratingViewerLink with
        | none => applyElo pd p.eloVal
        | some none => pd
        | some (some uid) =>
          let pd := { pd with universal_id := some uid,
                              historical_ratings := fetchHistoricalRatings today p.apiResp }
          applyElo pd p.eloVal
    let pd :=
      match p.stats with
      | some (some sv) => applyStats pd sv
      | _ => pd
    let pd :=
      match p.gameRows with
      | none => pd
      | some rows => rows.foldl gameStep pd
    if pd.opponent_ratings_raw.isEmpty then pd
    else { pd with avg_opponent_rating := ratMean pd.opponent_ratings_raw }

/-! ## Aggregation (`run_scraper`, lines 402-440) -/

/-- The `else` branch of team aggregation: concatenate matches, `update` the roster,
concatenate the raw rating lists. -/
def mergeTeamData (t new : TeamData) : TeamData :=
  { t with matchList := t.matchList ++ new.matchList,
           players := dictUpdate t.players new.players,
           opponent_ratings_raw := t.opponent_ratings_raw ++ new.opponent_ratings_raw }

/-- Body of the team aggregation loop over `final_team_data_list`. -/
def teamAggStep (acc : List (String × TeamData)) (td : TeamData) : List (String × TeamData) :=
  match alookup td.name acc with
  | none => acc ++ [(td.name, td)]
  | some _ => acc.map (fun kv => if kv.1 = td.name then (kv.1, mergeTeamData kv.2 td) else kv)

/-- `aggregated_teams_data` after the merge loop. -/
def aggregateTeams (l : List TeamData) : List (String × TeamData) :=
  l.foldl teamAggStep []

/-- `data['avg_opponent_rating'] = sum(raw)/len(raw) if raw else 0.0`. -/
def recomputeAvgTeam (td : TeamData) : TeamData :=
  if td.opponent_ratings_raw.isEmpty then { td with avg_opponent_rating := 0 }
  else { td with avg_opponent_rating := ratMean td.opponent_ratings_raw }

/-- Team aggregation including the average recomputation pass. -/
def runTeamAggregation (l : List TeamData) : List (String × TeamData) :=
  (aggregateTeams l).map (fun kv => (kv.1, recomputeAvgTeam kv.2))

/-- Seeding a first observation: `player_data['federation_ids'] = [federation_id]`. -/
def seedPlayer (pd : PlayerData) : PlayerData :=
  { pd with federation_ids := [pd.federation_id] }

/-- The `else` branch of player aggregation: sum scores, concatenate raw ratings,
append the federation id. -/
def mergePlayerData (e pd : PlayerData) : PlayerData :=
  { e with total_score := e.total_score + pd.total_score,
           opponent_ratings_raw := e.opponent_ratings_raw ++ pd.opponent_ratings_raw,
           federation_ids := e.federation_ids ++ [pd.federation_id] }

/-- Body of the player aggregation loop; `if not uid: continue` skips a missing
(`None`) universal id and, by Python falsiness, also an empty-string one. -/
def playerAggStep (acc : List (String × PlayerData)) (pd : PlayerData) :
    List (String × PlayerData) :=
  match pd.universal_id with
  | none => acc
  | some uid =>
    if uid = "" then acc
    else
      match alookup uid acc with
      | none => acc ++ [(uid, seedPlayer pd)]
      | some _ => acc.map (fun kv => if kv.1 = uid then (kv.1, mergePlayerData kv.2 pd) else kv)

/-- `aggregated_players_data` after the merge loop. -/
def aggregatePlayers (l : List PlayerData) : List (String × PlayerData) :=
  l.foldl playerAggStep []

/-- `data['avg_opponent_rating'] = sum(raw)/len(raw) if raw else 0.0`. -/
def recomputeAvgPlayer (pd : PlayerData) : PlayerData :=
  if pd.opponent_ratings_raw.isEmpty then { pd with avg_opponent_rating := 0 }
  else { pd with avg_opponent_rating := ratMean pd.opponent_ratings_raw }

/-- Player aggregation including the average recomputation pass. -/
def runPlayerAggregation (l : List PlayerData) : List (String × PlayerData) :=
  (aggregatePlayers l).map (fun kv => (kv.1, recomputeAvgPlayer kv.2))

/-! ## A generic view of both aggregation loops

Both loops are the same keyed fold: look up the record's key; seed on a miss,
merge on a hit.  The generic fold is proved equal to a direct "group by key"
description, which the per-claim theorems then instantiate. -/

section GenericAgg

variable {β : Type} [Inhabited β]

/-- The generic aggregation step: records without a key are dropped, the first
record of a key seeds, later records merge into the existing entry. -/
def stepG (key : β → Option String) (merge : β → β → β) (seed : β → β)
    (acc : List (String × β)) (b : β) : List (String × β) :=
  match key b with
  | none => acc
  | some k =>
    match alookup k acc with
    | none => acc ++ [(k, seed b)]
    | some _ => acc.map (fun kv => if kv.1 = k then (kv.1, merge kv.2 b) else kv)

/-- The generic aggregation fold. -/
def aggG (key : β → Option String) (merge : β → β → β) (seed : β → β) (l : List β) :
    List (String × β) :=
  l.foldl (stepG key merge seed) []

/-- Collect the keys of a record list in first-occurrence order. -/
def keysFoldStep (key : β → Option String) (ks : List String) (b : β) : List String :=
  match key b with
  | none => ks
  | some k => if k ∈ ks then ks else ks ++ [k]

/-- The keys of a record list in first-occurrence order. -/
def firstKeysG (key : β → Option String) (l : List β) : List String :=
  l.foldl (keysFoldStep key) []

/-- Collapse all records of one key: the first seeds, the rest merge in order. -/
def collapseG (merge : β → β → β) (seed : β → β) : List β → β
  | [] => default
  | b :: rest => rest.foldl merge (seed b)

/-- The direct "group by key" description of keyed aggregation. -/
def refAggG (key : β → Option String) (merge : β → β → β) (seed : β → β) (l : List β) :
    List (String × β) :=
  (firstKeysG key l).map (fun k => (k, collapseG merge seed (l.filter (fun b => key b = some k))))

end GenericAgg

/-! ## Dashboard linking (`dashboard.py`, `load_data`) -/

/-- The `fed_id_to_team` dict comprehension: every roster key of every team is
assigned that team's name, in iteration order (later teams overwrite). -/
def buildFedIdToTeam (teams : List TeamData) : List (String × String) :=
  teams.foldl (fun idx t => t.players.foldl (fun idx2 kv => dictInsert idx2 kv.1 t.name) idx) []

/-- `get_teams_for_player`: the set of index hits of the player's federation ids,
or the sentinel `{"Unknown"}` when there is none (a Python `set`, so order-free). -/
def getTeamsForPlayer (idx : List (String × String)) (fedIds : List String) : Finset String :=
  let s := (fedIds.filterMap (fun fid => alookup fid idx)).toFinset
  if s = ∅ then {"Unknown"} else s

/-- The name of the last team, in input order, whose roster contains the given
federation id (what the overwriting dict comprehension actually resolves to). -/
def lastTeamContaining (fid : String) (teams : List TeamData) : Option String :=
  teams.reverse.findSome? (fun t => if (alookup fid t.players).isSome then some t.name else none)

/-! ## Persistence (`run_scraper`, lines 442-449)

The three `json.dump` calls sit inside one `try` block.  The write outcomes are
modelled by a predicate on file names; the stage records which files got written
and whether the `except` branch reported an error. -/

/-- The three output files, in the order they are written. -/
def persistFileNames : List String :=
  ["chess_team_data.json", "chess_division_data.json", "chess_player_data.json"]

/-- Outcome of the persist stage. -/
structure PersistOutcome where
  written : List String
  errorReported : Bool
deriving Repr, DecidableEq

/-- The single `try` block of the persist stage: writes happen in sequence and the
first failing write raises, skipping the remaining writes; the `except` branch
reports the error and nothing is rolled back. -/
def persistStage (writeOk : String → Bool) : PersistOutcome :=
  if writeOk "chess_team_data.json" then
    if writeOk "chess_division_data.json" then
      if writeOk "chess_player_data.json" then
        { written := persistFileNames, errorReported := false }
      else { written := ["chess_team_data.json", "chess_division_data.json"],
             errorReported := true }
    else { written := ["chess_team_data.json"], errorReported := true }
  else { written := [], errorReported := true }

/-! ## Repair mode -/

/-- A loaded team counts as failed when both its roster and its match list are empty. -/
def isFailedTeam (t : TeamData) : Bool :=
  t.players.isEmpty && t.matchList.isEmpty

/-- Modelled from the spec: the repair-mode entry point (spec §4.4) is not part of
`src/`; only the full-crawl entry point is.  Per the spec it loads the persisted
teams, treats those with empty roster and empty match list as failed, re-runs
discovery and team fetching scoped to exactly those team names, and merges the
successful re-fetches (those that are no longer empty) back into the loaded
collection before re-persisting. -/
def repairMode (loaded : List (String × TeamData)) (discovered : List TeamInstance)
    (fetch : TeamInstance → Option TeamPage) : List (String × TeamData) :=
  let failedNames := (loaded.filter (fun kv => isFailedTeam kv.2)).map Prod.fst
  let scopedList := discovered.filter (fun i => failedNames.contains i.name)
  let refetched := scopedList.filterMap (fun i => (scrapeTeamPage i (fetch i)).toOption)
  let successes := refetched.filter (fun t => !isFailedTeam t)
  loaded.map (fun kv =>
    match successes.find? (fun t => t.name = kv.1) with
    | some t1 => (kv.1, t1)
    | none => kv)

/-- The failed team names of a loaded collection (scope of the repair re-crawl). -/
def failedNamesOf (loaded : List (String × TeamData)) : List String :=
  (loaded.filter (fun kv => isFailedTeam kv.2)).map Prod.fst

/-- The successful re-fetches of a repair run: a re-fetch that raises is not a
successful re-fetch. -/
def repairSuccesses (loaded : List (String × TeamData)) (discovered : List TeamInstance)
    (fetch : TeamInstance → Option TeamPage) : List TeamData :=
  ((discovered.filter (fun i => (failedNamesOf loaded).contains i.name)).filterMap
    (fun i => (scrapeTeamPage i (fetch i)).toOption)).filter (fun t => !isFailedTeam t)

/-! ## Claim-side reference descriptions -/

instance : Inhabited TeamData := ⟨defaultTeamData { name := "", url := "", domain := "" }⟩

instance : Inhabited PlayerData := ⟨defaultPlayerData ""⟩

/-- The aggregation key of a team record: its name (every record has one). -/
def teamObsKey (td : TeamData) : Option String :=
  some td.name

/-- The aggregation key of a player observation as the spec sentence describes it:
only a missing (`None`) universal id is excluded. -/
def playerObsKeyRef (pd : PlayerData) : Option String :=
  pd.universal_id

/-- The aggregation key of a player observation as the code tests it
(`if not uid`): a missing or empty-string universal id is excluded. -/
def playerObsKeyAmended (pd : PlayerData) : Option String :=
  match pd.universal_id with
  | none => none
  | some uid => if uid = "" then none else some uid

/-- The claim's reference definition of player aggregation, as a direct
"group observations by universal id" description parameterised by which
observations are excluded. -/
def referencePlayerAgg (key : PlayerData → Option String) (l : List PlayerData) :
    List (String × PlayerData) :=
  refAggG key mergePlayerData seedPlayer l

/-- Last-write-wins roster resolution across the merged instances of one team:
the binding of the last instance, in input order, whose roster contains the id. -/
def lastWriteWins (k : String) (fl : List TeamData) : Option PlayerRef :=
  fl.reverse.findSome? (fun td => alookup k td.players)

/-- The rating of the first entry, in list order, that falls in the trailing
window and in the given calendar-month bucket (the claim-side description of
which entry a bucket keeps). -/
def firstRatingFor (today : CivDate) (entries : List RatingEntry) (k : String) : Option Int :=
  entries.findSome? (fun e =>
    match e.moment, e.rating with
    | some d, some r => if inWindow today d ∧ periodKey d = k then some r else none
    | _, _ => none)

/-! ## Order instances for the bucket sort and sample data -/

/-- `charListLtB` is asymmetric. -/
theorem charListLtB_asymm : ∀ x y : List Char,
    charListLtB x y = true → charListLtB y x = true → False := by
  intro x
  induction x with
  | nil => intro y h1 h2; cases y <;> simp [charListLtB] at h1 h2
  | cons cx rx ih =>
    intro y h1 h2
    cases y with
    | nil => simp [charListLtB] at h1
    | cons cy ry =>
      by_cases hc : cx = cy
      · subst hc
        simp only [charListLtB, if_pos rfl] at h1 h2
        exact ih ry h1 h2
      · have hc2 : ¬cy = cx := fun he => hc he.symm
        simp only [charListLtB, if_neg hc, if_neg hc2, decide_eq_true_eq] at h1 h2
        exact absurd h2 (lt_asymm h1)

/-- Lexicographic comparability: a `charListLtB` step can always be routed
through a middle list. -/
theorem charListLtB_connex : ∀ x z y : List Char, charListLtB x z = true →
    charListLtB x y = true ∨ charListLtB y z = true := by
  intro x
  induction x with
  | nil =>
    intro z y h
    cases z with
    | nil => simp [charListLtB] at h
    | cons cz rz =>
      cases y with
      | nil => right; simp [charListLtB]
      | cons cy ry => left; simp [charListLtB]
  | cons cx rx ih =>
    intro z y h
    cases z with
    | nil => simp [charListLtB] at h
    | cons cz rz =>
      cases y with
      | nil => right; simp [charListLtB]
      | cons cy ry =>
        by_cases hxz : cx = cz
        · subst hxz
          simp only [charListLtB, if_pos rfl] at h
          by_cases hxy : cx = cy
          · subst hxy
            rcases ih rz ry h with h1 | h1
            · left; simp [charListLtB, h1]
            · right; simp [charListLtB, h1]
          · have hyz : ¬cy = cx := fun he => hxy he.symm
            rcases lt_or_gt_of_ne hxy with hlt | hgt
            · left; simp [charListLtB, if_neg hxy, hlt]
            · right; simp [charListLtB, if_neg hyz, hgt]
        · simp only [charListLtB, if_neg hxz, decide_eq_true_eq] at h
          by_cases hxy : cx = cy
          · subst hxy
            have hyz : ¬cx = cz := hxz
            right
            simp [charListLtB, if_neg hyz, h]
          · by_cases hyz : cy = cz
            · subst hyz
              left
              simp [charListLtB, if_neg hxy, h]
            · rcases lt_trichotomy cx cy with hlt | heq | hgt
              · left; simp [charListLtB, if_neg hxy, hlt]
              · exact absurd heq hxy
              · right; simp [charListLtB, if_neg hyz, lt_trans hgt h]

instance : IsTotal (String × Int) keyLe := by
  constructor
  intro a b
  by_cases h : strLtB b.1 a.1 = true
  · right
    unfold keyLe
    by_cases h2 : strLtB a.1 b.1 = true
    · exact absurd (charListLtB_asymm _ _ h h2) not_false
    · simpa using h2
  · left
    unfold keyLe
    simpa using h

instance : IsTrans (String × Int) keyLe := by
  constructor
  intro a b c h1 h2
  unfold keyLe strLtB at h1 h2 ⊢
  by_contra hca
  have hca2 : charListLtB c.1.data a.1.data = true := by
    cases h : charListLtB c.1.data a.1.data
    · exact absurd h hca
    · rfl
  rcases charListLtB_connex c.1.data a.1.data b.1.data hca2 with h3 | h3
  · rw [h2] at h3
    exact Bool.noConfusion h3
  · rw [h1] at h3
    exact Bool.noConfusion h3

/-- A write predicate where only the first file (teams) fails. -/
def persistCexOk : String → Bool :=
  fun f => !(f == "chess_team_data.json")

/-- Sample discovery instance for the "CLUB 1" merge scenario. -/
def demoInstA : TeamInstance :=
  { name := "CLUB 1", url := "u1", domain := "KNSB" }

/-- Sample team record: one match, roster `{"101": Alice}`, two raw ratings. -/
def demoTeamA : TeamData :=
  { defaultTeamData demoInstA with
    matchList := [{ date := "2024-01-01", opponent := "X", location := "Home", result := "4-4" }],
    players := [("101", { name := "Alice", url := "ua" })],
    opponent_ratings_raw := [1500, 1600] }

/-- Sample team record with the same name: one match, roster `{"102": Bob}`, one rating. -/
def demoTeamB : TeamData :=
  { defaultTeamData demoInstA with
    matchList := [{ date := "2024-02-01", opponent := "Y", location := "Away", result := "3.5-4.5" }],
    players := [("102", { name := "Bob", url := "ub" })],
    opponent_ratings_raw := [1700] }

/-- The aggregated "CLUB 1" team of the sample run. -/
def demoAggTeam : TeamData :=
  (alookup "CLUB 1" (runTeamAggregation [demoTeamA, demoTeamB])).getD default

/-- Sample observation of player 900 under KNSB id 55. -/
def demoObsA : PlayerData :=
  { defaultPlayerData "55" with
    universal_id := some "900",
    opponent_ratings_raw := [1500, 1600], total_score := 1 }

/-- Sample observation of player 900 under NOSBO id 77. -/
def demoObsB : PlayerData :=
  { defaultPlayerData "77" with
    universal_id := some "900",
    opponent_ratings_raw := [1700], total_score := 2 }

/-- The aggregated player 900 of the sample run. -/
def demoAggPlayer : PlayerData :=
  (alookup "900" (runPlayerAggregation [demoObsA, demoObsB])).getD default

/-- An observation whose universal id is the empty string. -/
def demoEmptyUidObs : PlayerData :=
  { defaultPlayerData "55" with universal_id := some "" }

/-- A ghost pairing table: every participant is the placeholder `NN`. -/
def demoGhostTable : PairingTable :=
  { tbodyLinks := some ["NN", "NN"], theadLinks := some ["OPP"], footerRatings := [some 1500] }

/-- A pairing-results table without a `tbody`: the extractor raises on it. -/
def demoNoTbodyTable : PairingTable :=
  { tbodyLinks := none, theadLinks := some ["OPP"], footerRatings := [some 1500] }

/-- A non-ghost pairing-results table without a `thead`: the extractor raises on it. -/
def demoNoTheadTable : PairingTable :=
  { tbodyLinks := some ["Alice", "Bob"], theadLinks := none, footerRatings := [] }

/-- A fixture row whose pairing page has a results table without a `tbody`. -/
def demoNoTbodyRow : FixtureRow :=
  { cells := ["r", "2024-01-01", "CLUB 1", "OPP", "4-4"],
    pairingHref := some "/pairings/view/2",
    pairingDoc := some { resultsTable := some demoNoTbodyTable } }

/-- A fixture row whose pairing page is the ghost table. -/
def demoGhostRow : FixtureRow :=
  { cells := ["r", "2024-01-01", "CLUB 1", "OPP", "4-4"],
    pairingHref := some "/pairings/view/1",
    pairingDoc := some { resultsTable := some demoGhostTable } }

/-- A team page with no roster and no fixtures. -/
def demoTeamPage : TeamPage :=
  { divisionHref := none, mp := none, bp := none, rosterRows := none, fixtureRows := none }

/-- Sample "today" for the historical-ratings window. -/
def demoToday : CivDate :=
  { year := 2025, month := 10, day := 12 }

/-- Sample API entries: two in 2025-06 (first one first), one out of window, one in 2025-01. -/
def demoEntries : List RatingEntry :=
  [ { moment := some { year := 2025, month := 6, day := 15 }, rating := some 1500 },
    { moment := some { year := 2025, month := 6, day := 1 }, rating := some 1490 },
    { moment := some { year := 2023, month := 6, day := 1 }, rating := some 1000 },
    { moment := some { year := 2025, month := 1, day := 5 }, rating := some 1450 } ]

/-- Team "A" whose roster contains local id 101. -/
def demoIdxTeamA : TeamData :=
  { defaultTeamData { name := "A", url := "", domain := "KNSB" } with
    players := [("101", { name := "P", url := "" })] }

/-- Team "B" whose roster also contains local id 101. -/
def demoIdxTeamB : TeamData :=
  { defaultTeamData { name := "B", url := "", domain := "KNSB" } with
    players := [("101", { name := "P", url := "" })] }

/-- A loaded team with empty roster and empty match list (a repair candidate). -/
def demoEmptyTeam : TeamData :=
  defaultTeamData { name := "E", url := "ue", domain := "KNSB" }

/-- The discovery record for the repair candidate. -/
def demoRepairInst : TeamInstance :=
  { name := "E", url := "ue", domain := "KNSB" }

/-- A successful re-fetch page: the roster table is present this time. -/
def demoRepairPage : TeamPage :=
  { divisionHref := none, mp := none, bp := none,
    rosterRows := some [{ playerId := "7", playerName := "Pia", href := "/players/view/7" }],
    fixtureRows := none }

/-- The repair-mode fetch outcome. -/
def demoRepairFetch : TeamInstance → Option TeamPage :=
  fun _ => some demoRepairPage

/-- The re-fetched repair candidate. -/
def demoRepairedTeam : TeamData :=
  (scrapeTeamPage demoRepairInst (some demoRepairPage)).toOption.getD default

/-- The record the team extractor returns on the empty sample page. -/
def demoScrapedTeam : TeamData :=
  (scrapeTeamPage demoInstA (some demoTeamPage)).toOption.getD default

/-- Sample team records that each satisfy the match/rating length invariant. -/
def demoLenTeamA : TeamData :=
  { defaultTeamData demoInstA with
    matchList := [{ date := "2024-01-01", opponent := "X", location := "Home", result := "4-4" }],
    opponent_ratings_raw := [1500] }

/-- A second length-invariant record under the same name. -/
def demoLenTeamB : TeamData :=
  { defaultTeamData demoInstA with
    matchList := [{ date := "2024-02-01", opponent := "Y", location := "Away", result := "3.5-4.5" }],
    opponent_ratings_raw := [1700] }

/-- The aggregated length-invariant team. -/
def demoLenAgg : TeamData :=
  (alookup "CLUB 1" (runTeamAggregation [demoLenTeamA, demoLenTeamB])).getD default

/-! # Lemmas about the dict model -/

theorem alookup_append {α : Type} (k : String) (l1 l2 : List (String × α)) :
    alookup k (l1 ++ l2) =
      match alookup k l1 with
      | some v => some v
      | none => alookup k l2 := by
  induction l1 with
  | nil => simp [alookup]
  | cons kv rest ih =>
    obtain ⟨k1, v⟩ := kv
    by_cases h : k1 = k <;> simp [alookup, h, ih]

theorem alookup_dictInsert {α : Type} (k k1 : String) (v : α) (m : List (String × α)) :
    alookup k (dictInsert m k1 v) = if k1 = k then some v else alookup k m := by
  induction m with
  | nil => simp [dictInsert, alookup]
  | cons kv rest ih =>
    obtain ⟨k2, v2⟩ := kv
    by_cases h2 : k2 = k1
    · subst h2
      by_cases h : k2 = k <;> simp [dictInsert, alookup, h]
    · by_cases hk1 : k1 = k <;> by_cases hk2 : k2 = k <;>
        simp_all [dictInsert, alookup]

theorem alookup_mem {α : Type} {k : String} {v : α} {m : List (String × α)}
    (h : alookup k m = some v) : (k, v) ∈ m := by
  induction m with
  | nil => simp [alookup] at h
  | cons kv rest ih =>
    obtain ⟨k1, v1⟩ := kv
    by_cases h1 : k1 = k
    · subst h1
      simp [alookup] at h
      simp [h]
    · simp [alookup, h1] at h
      exact List.mem_cons_of_mem _ (ih h)

theorem alookup_eq_none_iff {α : Type} {k : String} {m : List (String × α)} :
    alookup k m = none ↔ k ∉ m.map Prod.fst := by
  induction m with
  | nil => simp [alookup]
  | cons kv rest ih =>
    obtain ⟨k1, v1⟩ := kv
    by_cases h1 : k1 = k <;> simp_all [alookup, h1, eq_comm]

theorem alookup_of_mem_nodup {α : Type} {k : String} {v : α} {m : List (String × α)}
    (hnd : (m.map Prod.fst).Nodup) (hm : (k, v) ∈ m) : alookup k m = some v := by
  induction m with
  | nil => simp at hm
  | cons kv rest ih =>
    obtain ⟨k1, v1⟩ := kv
    simp only [List.map_cons, List.nodup_cons] at hnd
    rcases List.mem_cons.mp hm with h | h
    · cases h
      simp [alookup]
    · have hk : k1 ≠ k := by
        intro he
        subst he
        exact hnd.1 (List.mem_map_of_mem Prod.fst h)
      simp [alookup, hk, ih hnd.2 h]

theorem alookup_perm {α : Type} {m1 m2 : List (String × α)} (hp : m1.Perm m2)
    (hnd : (m1.map Prod.fst).Nodup) (k : String) : alookup k m1 = alookup k m2 := by
  have hnd2 : (m2.map Prod.fst).Nodup := ((hp.map Prod.fst).nodup_iff).mp hnd
  cases h1 : alookup k m1 with
  | some v => exact (alookup_of_mem_nodup hnd2 (hp.mem_iff.mp (alookup_mem h1))).symm
  | none =>
    cases h2 : alookup k m2 with
    | none => rfl
    | some v =>
      exfalso
      have hv : (k, v) ∈ m1 := hp.mem_iff.mpr (alookup_mem h2)
      exact (alookup_eq_none_iff.mp h1) (List.mem_map_of_mem Prod.fst hv)

theorem alookup_reverse_of_nodup {α : Type} {m : List (String × α)}
    (hnd : (m.map Prod.fst).Nodup) (k : String) : alookup k m.reverse = alookup k m := by
  have h2 : ((m.reverse).map Prod.fst).Nodup := by
    rw [List.map_reverse]
    exact List.nodup_reverse.mpr hnd
  exact alookup_perm m.reverse_perm h2 k

theorem alookup_map_value {α β : Type} (g : α → β) (k : String) (m : List (String × α)) :
    alookup k (m.map (fun kv => (kv.1, g kv.2))) = (alookup k m).map g := by
  induction m with
  | nil => simp [alookup]
  | cons kv rest ih =>
    obtain ⟨k1, v1⟩ := kv
    by_cases h : k1 = k <;> simp [alookup, h, ih]

theorem alookup_keymap {β : Type} (g : String → β) (k : String) (ks : List String) :
    alookup k (ks.map (fun k0 => (k0, g k0))) = if k ∈ ks then some (g k) else none := by
  induction ks with
  | nil => simp [alookup]
  | cons k0 rest ih =>
    by_cases h : k0 = k
    · subst h
      simp [alookup]
    · simp_all [alookup, h, List.mem_cons, eq_comm]

theorem dictUpdate_append_single {α : Type} (old new : List (String × α)) (kv : String × α) :
    dictUpdate old (new ++ [kv]) = dictInsert (dictUpdate old new) kv.1 kv.2 := by
  simp [dictUpdate, List.foldl_append]

theorem alookup_dictUpdate {α : Type} (k : String) (old new : List (String × α)) :
    alookup k (dictUpdate old new) =
      match alookup k new.reverse with
      | some v => some v
      | none => alookup k old := by
  induction new using List.reverseRecOn with
  | nil => simp [dictUpdate, alookup]
  | append_singleton rest kv ih =>
    obtain ⟨k1, v1⟩ := kv
    rw [dictUpdate_append_single]
    rw [alookup_dictInsert]
    rw [List.reverse_append]
    by_cases h : k1 = k <;> simp [alookup, h, ih]

/-! # Lemmas about the generic keyed-aggregation fold -/

section GenericAggLemmas

variable {β : Type}

theorem foldl_ext {α γ : Type} (f g : γ → α → γ) (h : ∀ c a, f c a = g c a) :
    ∀ (l : List α) (init : γ), l.foldl f init = l.foldl g init := by
  intro l
  induction l with
  | nil => intro init; rfl
  | cons a rest ih =>
    intro init
    rw [List.foldl_cons, List.foldl_cons, h, ih]

theorem mem_keysFoldStep (key : β → Option String) (ks : List String) (b : β) (k : String) :
    k ∈ keysFoldStep key ks b ↔ k ∈ ks ∨ key b = some k := by
  cases hb : key b with
  | none => simp [keysFoldStep, hb]
  | some kb =>
    by_cases hmem : kb ∈ ks
    · simp only [keysFoldStep, hb, if_pos hmem]
      constructor
      · exact fun h => Or.inl h
      · rintro (h | h)
        · exact h
        · cases Option.some.inj h
          exact hmem
    · simp only [keysFoldStep, hb, if_neg hmem]
      simp [List.mem_append, eq_comm]

theorem mem_firstKeysG_aux (key : β → Option String) (l : List β) :
    ∀ (ks : List String) (k : String),
      k ∈ l.foldl (keysFoldStep key) ks ↔ k ∈ ks ∨ ∃ b ∈ l, key b = some k := by
  induction l with
  | nil => intro ks k; simp
  | cons b rest ih =>
    intro ks k
    rw [List.foldl_cons, ih, mem_keysFoldStep]
    simp [or_assoc]

theorem mem_firstKeysG (key : β → Option String) (l : List β) (k : String) :
    k ∈ firstKeysG key l ↔ ∃ b ∈ l, key b = some k := by
  unfold firstKeysG
  rw [mem_firstKeysG_aux]
  simp

theorem nodup_firstKeysG_aux (key : β → Option String) (l : List β) :
    ∀ ks : List String, ks.Nodup → (l.foldl (keysFoldStep key) ks).Nodup := by
  induction l with
  | nil => intro ks h; exact h
  | cons b rest ih =>
    intro ks h
    rw [List.foldl_cons]
    apply ih
    cases hb : key b with
    | none => simpa [keysFoldStep, hb] using h
    | some kb =>
      by_cases hmem : kb ∈ ks
      · simpa [keysFoldStep, hb, hmem] using h
      · simp only [keysFoldStep, hb, if_neg hmem]
        simp [List.nodup_append, h, hmem]

theorem nodup_firstKeysG (key : β → Option String) (l : List β) :
    (firstKeysG key l).Nodup :=
  nodup_firstKeysG_aux key l [] List.nodup_nil

theorem firstKeysG_append_single (key : β → Option String) (l : List β) (b : β) :
    firstKeysG key (l ++ [b]) = keysFoldStep key (firstKeysG key l) b := by
  simp [firstKeysG, List.foldl_append]

theorem collapseG_append_single [Inhabited β] (merge : β → β → β) (seed : β → β) (fl : List β) (b : β)
    (h : fl ≠ []) :
    collapseG merge seed (fl ++ [b]) = merge (collapseG merge seed fl) b := by
  cases fl with
  | nil => exact absurd rfl h
  | cons b0 rest => simp [collapseG, List.foldl_append]

theorem alookup_refAggG [Inhabited β] (key : β → Option String) (merge : β → β → β) (seed : β → β)
    (l : List β) (k : String) :
    alookup k (refAggG key merge seed l) =
      if k ∈ firstKeysG key l then
        some (collapseG merge seed (l.filter (fun b => key b = some k)))
      else none :=
  alookup_keymap (fun k0 => collapseG merge seed (l.filter (fun b => key b = some k0))) k
    (firstKeysG key l)

theorem filter_eq_nil_of_not_mem_firstKeysG (key : β → Option String) {l : List β} {k : String}
    (h : k ∉ firstKeysG key l) : l.filter (fun b => key b = some k) = [] := by
  rw [List.filter_eq_nil_iff]
  intro b hb hkey
  exact h ((mem_firstKeysG key l k).mpr ⟨b, hb, of_decide_eq_true hkey⟩)

theorem filter_ne_nil_of_mem_firstKeysG (key : β → Option String) {l : List β} {k : String}
    (h : k ∈ firstKeysG key l) : l.filter (fun b => key b = some k) ≠ [] := by
  obtain ⟨b, hb, hkey⟩ := (mem_firstKeysG key l k).mp h
  intro hnil
  have : b ∈ l.filter (fun b => key b = some k) := by
    rw [List.mem_filter]
    exact ⟨hb, decide_eq_true hkey⟩
  rw [hnil] at this
  simp at this

theorem stepG_none (key : β → Option String) (merge : β → β → β) (seed : β → β)
    {acc : List (String × β)} {b : β} (hb : key b = none) :
    stepG key merge seed acc b = acc := by
  simp [stepG, hb]

theorem stepG_some_miss (key : β → Option String) (merge : β → β → β) (seed : β → β)
    {acc : List (String × β)} {b : β} {k : String} (hb : key b = some k)
    (hl : alookup k acc = none) :
    stepG key merge seed acc b = acc ++ [(k, seed b)] := by
  simp [stepG, hb, hl]

theorem stepG_some_hit (key : β → Option String) (merge : β → β → β) (seed : β → β)
    {acc : List (String × β)} {b : β} {k : String} {v : β} (hb : key b = some k)
    (hl : alookup k acc = some v) :
    stepG key merge seed acc b =
      acc.map (fun kv => if kv.1 = k then (kv.1, merge kv.2 b) else kv) := by
  simp [stepG, hb, hl]

/-- The two aggregation loops of `run_scraper` compute their "group records by key,
seed on the first, merge the rest in order" description. -/
theorem aggG_eq_refAggG [Inhabited β] (key : β → Option String) (merge : β → β → β) (seed : β → β)
    (l : List β) : aggG key merge seed l = refAggG key merge seed l := by
  induction l using List.reverseRecOn with
  | nil => rfl
  | append_singleton rest b ih =>
    have hfold : aggG key merge seed (rest ++ [b]) =
        stepG key merge seed (aggG key merge seed rest) b := by
      simp [aggG, List.foldl_append]
    rw [hfold, ih]
    cases hb : key b with
    | none =>
      rw [stepG_none key merge seed hb]
      unfold refAggG
      rw [firstKeysG_append_single]
      simp only [keysFoldStep, hb]
      apply List.map_congr_left
      intro k _
      have hf : (rest ++ [b]).filter (fun b0 => key b0 = some k) =
          rest.filter (fun b0 => key b0 = some k) := by
        rw [List.filter_append, List.filter_singleton]
        simp [hb]
      rw [hf]
    | some kb =>
      by_cases hmem : kb ∈ firstKeysG key rest
      · rw [stepG_some_hit key merge seed hb (by rw [alookup_refAggG, if_pos hmem])]
        unfold refAggG
        rw [firstKeysG_append_single]
        simp only [keysFoldStep, hb, if_pos hmem]
        rw [List.map_map]
        apply List.map_congr_left
        intro k hk
        by_cases hkkb : k = kb
        · subst hkkb
          have hf : (rest ++ [b]).filter (fun b0 => key b0 = some k) =
              rest.filter (fun b0 => key b0 = some k) ++ [b] := by
            rw [List.filter_append, List.filter_singleton]
            simp [hb]
          simp only [Function.comp_apply, if_pos rfl, hf]
          rw [collapseG_append_single _ _ _ _ (filter_ne_nil_of_mem_firstKeysG key hmem)]
          simp
        · have hf : (rest ++ [b]).filter (fun b0 => key b0 = some k) =
              rest.filter (fun b0 => key b0 = some k) := by
            rw [List.filter_append, List.filter_singleton]
            simp [hb, Ne.symm hkkb]
          simp only [Function.comp_apply, if_neg hkkb, hf]
      · rw [stepG_some_miss key merge seed hb (by rw [alookup_refAggG, if_neg hmem])]
        unfold refAggG
        rw [firstKeysG_append_single]
        simp only [keysFoldStep, hb, if_neg hmem]
        rw [List.map_append]
        congr 1
        · apply List.map_congr_left
          intro k hk
          have hkkb : k ≠ kb := fun he => hmem (he ▸ hk)
          have hf : (rest ++ [b]).filter (fun b0 => key b0 = some k) =
              rest.filter (fun b0 => key b0 = some k) := by
            rw [List.filter_append, List.filter_singleton]
            simp [hb, Ne.symm hkkb]
          rw [hf]
        · have hrest : rest.filter (fun b0 => key b0 = some kb) = [] :=
            filter_eq_nil_of_not_mem_firstKeysG key hmem
          simp [List.filter_append, List.filter_singleton, hrest, hb, collapseG]

end GenericAggLemmas

/-! # Bridges between the concrete loops and the generic fold -/

theorem teamAggStep_eq_stepG (acc : List (String × TeamData)) (td : TeamData) :
    teamAggStep acc td = stepG teamObsKey mergeTeamData id acc td := by
  cases h : alookup td.name acc with
  | none => simp [teamAggStep, stepG, teamObsKey, h]
  | some v => simp [teamAggStep, stepG, teamObsKey, h]

theorem aggregateTeams_eq_aggG (l : List TeamData) :
    aggregateTeams l = aggG teamObsKey mergeTeamData id l :=
  foldl_ext _ _ teamAggStep_eq_stepG l []

theorem playerAggStep_eq_stepG (acc : List (String × PlayerData)) (pd : PlayerData) :
    playerAggStep acc pd = stepG playerObsKeyAmended mergePlayerData seedPlayer acc pd := by
  cases h : pd.universal_id with
  | none => simp [playerAggStep, stepG, playerObsKeyAmended, h]
  | some uid =>
    by_cases he : uid = ""
    · simp [playerAggStep, stepG, playerObsKeyAmended, h, he]
    · cases hl : alookup uid acc with
      | none => simp [playerAggStep, stepG, playerObsKeyAmended, h, he, hl]
      | some v => simp [playerAggStep, stepG, playerObsKeyAmended, h, he, hl]

theorem aggregatePlayers_eq_aggG (l : List PlayerData) :
    aggregatePlayers l = aggG playerObsKeyAmended mergePlayerData seedPlayer l :=
  foldl_ext _ _ playerAggStep_eq_stepG l []

theorem teamFilter_eq (l : List TeamData) (n : String) :
    l.filter (fun td => teamObsKey td = some n) = l.filter (fun td => td.name = n) := by
  apply List.filter_congr
  intro td _
  simp [teamObsKey]

theorem alookup_aggregateTeams (l : List TeamData) (n : String) :
    alookup n (aggregateTeams l) =
      if n ∈ firstKeysG teamObsKey l then
        some (collapseG mergeTeamData id (l.filter (fun td => td.name = n)))
      else none := by
  rw [aggregateTeams_eq_aggG, aggG_eq_refAggG, alookup_refAggG, teamFilter_eq]

theorem alookup_aggregatePlayers (l : List PlayerData) (u : String) :
    alookup u (aggregatePlayers l) =
      if u ∈ firstKeysG playerObsKeyAmended l then
        some (collapseG mergePlayerData seedPlayer
          (l.filter (fun pd => playerObsKeyAmended pd = some u)))
      else none := by
  rw [aggregatePlayers_eq_aggG, aggG_eq_refAggG, alookup_refAggG]

theorem alookup_runTeamAggregation (l : List TeamData) (n : String) :
    alookup n (runTeamAggregation l) = (alookup n (aggregateTeams l)).map recomputeAvgTeam :=
  alookup_map_value recomputeAvgTeam n (aggregateTeams l)

theorem alookup_runPlayerAggregation (l : List PlayerData) (u : String) :
    alookup u (runPlayerAggregation l) = (alookup u (aggregatePlayers l)).map recomputeAvgPlayer :=
  alookup_map_value recomputeAvgPlayer u (aggregatePlayers l)

/-! # Field characterisations of the merge folds -/

theorem foldl_mergeTeamData_matchList (rest : List TeamData) :
    ∀ t0 : TeamData, (rest.foldl mergeTeamData t0).matchList
      = t0.matchList ++ (rest.map (fun td => td.matchList)).join := by
  induction rest with
  | nil => intro t0; simp
  | cons td rest ih =>
    intro t0
    rw [List.foldl_cons, ih]
    simp [mergeTeamData]

theorem foldl_mergeTeamData_raw (rest : List TeamData) :
    ∀ t0 : TeamData, (rest.foldl mergeTeamData t0).opponent_ratings_raw
      = t0.opponent_ratings_raw ++ (rest.map (fun td => td.opponent_ratings_raw)).join := by
  induction rest with
  | nil => intro t0; simp
  | cons td rest ih =>
    intro t0
    rw [List.foldl_cons, ih]
    simp [mergeTeamData]

theorem foldl_mergeTeamData_players (rest : List TeamData) :
    ∀ t0 : TeamData, (rest.foldl mergeTeamData t0).players
      = (rest.map (fun td => td.players)).foldl dictUpdate t0.players := by
  induction rest with
  | nil => intro t0; simp
  | cons td rest ih =>
    intro t0
    rw [List.foldl_cons, ih]
    simp [mergeTeamData]

theorem collapseTeam_matchList {fl : List TeamData} (h : fl ≠ []) :
    (collapseG mergeTeamData id fl).matchList = (fl.map (fun td => td.matchList)).join := by
  cases fl with
  | nil => exact absurd rfl h
  | cons b0 rest => simp [collapseG, foldl_mergeTeamData_matchList]

theorem collapseTeam_raw {fl : List TeamData} (h : fl ≠ []) :
    (collapseG mergeTeamData id fl).opponent_ratings_raw
      = (fl.map (fun td => td.opponent_ratings_raw)).join := by
  cases fl with
  | nil => exact absurd rfl h
  | cons b0 rest => simp [collapseG, foldl_mergeTeamData_raw]

theorem recomputeAvgTeam_fields (td : TeamData) :
    (recomputeAvgTeam td).matchList = td.matchList
  ∧ (recomputeAvgTeam td).opponent_ratings_raw = td.opponent_ratings_raw
  ∧ (recomputeAvgTeam td).players = td.players := by
  unfold recomputeAvgTeam
  by_cases h : td.opponent_ratings_raw.isEmpty <;> simp [h]

theorem recomputeAvgTeam_avg (td : TeamData) :
    (recomputeAvgTeam td).avg_opponent_rating =
      if td.opponent_ratings_raw = [] then 0 else ratMean td.opponent_ratings_raw := by
  unfold recomputeAvgTeam
  by_cases h : td.opponent_ratings_raw.isEmpty <;>
    simp_all [List.isEmpty_iff]

theorem recomputeAvgPlayer_fields (pd : PlayerData) :
    (recomputeAvgPlayer pd).opponent_ratings_raw = pd.opponent_ratings_raw
  ∧ (recomputeAvgPlayer pd).federation_ids = pd.federation_ids
  ∧ (recomputeAvgPlayer pd).total_score = pd.total_score := by
  unfold recomputeAvgPlayer
  by_cases h : pd.opponent_ratings_raw.isEmpty <;> simp [h]

theorem recomputeAvgPlayer_avg (pd : PlayerData) :
    (recomputeAvgPlayer pd).avg_opponent_rating =
      if pd.opponent_ratings_raw = [] then 0 else ratMean pd.opponent_ratings_raw := by
  unfold recomputeAvgPlayer
  by_cases h : pd.opponent_ratings_raw.isEmpty <;>
    simp_all [List.isEmpty_iff]

theorem foldl_mergePlayerData_fields (rest : List PlayerData) :
    ∀ p0 : PlayerData,
      ((rest.foldl mergePlayerData p0).total_score
          = p0.total_score + (rest.map (fun pd => pd.total_score)).sum)
    ∧ ((rest.foldl mergePlayerData p0).opponent_ratings_raw
          = p0.opponent_ratings_raw ++ (rest.map (fun pd => pd.opponent_ratings_raw)).join)
    ∧ ((rest.foldl mergePlayerData p0).federation_ids
          = p0.federation_ids ++ rest.map (fun pd => pd.federation_id)) := by
  induction rest with
  | nil => intro p0; simp
  | cons pd rest ih =>
    intro p0
    obtain ⟨h1, h2, h3⟩ := ih (mergePlayerData p0 pd)
    refine ⟨?_, ?_, ?_⟩
    · rw [List.foldl_cons, h1]
      simp [mergePlayerData, add_assoc]
    · rw [List.foldl_cons, h2]
      simp [mergePlayerData]
    · rw [List.foldl_cons, h3]
      simp [mergePlayerData]

theorem collapsePlayer_fields {fl : List PlayerData} (h : fl ≠ []) :
    ((collapseG mergePlayerData seedPlayer fl).federation_ids
        = fl.map (fun pd => pd.federation_id))
  ∧ ((collapseG mergePlayerData seedPlayer fl).opponent_ratings_raw
        = (fl.map (fun pd => pd.opponent_ratings_raw)).join)
  ∧ ((collapseG mergePlayerData seedPlayer fl).total_score
        = (fl.map (fun pd => pd.total_score)).sum) := by
  cases fl with
  | nil => exact absurd rfl h
  | cons b0 rest =>
    obtain ⟨h1, h2, h3⟩ := foldl_mergePlayerData_fields rest (seedPlayer b0)
    refine ⟨?_, ?_, ?_⟩
    · simp only [collapseG]
      rw [h3]
      simp [seedPlayer]
    · simp only [collapseG]
      rw [h2]
      simp [seedPlayer]
    · simp only [collapseG]
      rw [h1]
      simp [seedPlayer]

/-! # Roster resolution helpers -/

theorem alookup_singleton {α : Type} (k k0 : String) (v : α) :
    alookup k [(k0, v)] = if k0 = k then some v else none := by
  simp [alookup]

theorem findSome?_append {α β : Type} (f : α → Option β) (l1 l2 : List α) :
    (l1 ++ l2).findSome? f =
      match l1.findSome? f with
      | some v => some v
      | none => l2.findSome? f := by
  induction l1 with
  | nil => simp
  | cons a rest ih =>
    cases ha : f a <;> simp [List.findSome?_cons, ha, ih]

theorem findSome?_isSome_iff {α β : Type} (f : α → Option β) (l : List α) :
    (l.findSome? f).isSome ↔ ∃ a ∈ l, (f a).isSome := by
  induction l with
  | nil => simp
  | cons a rest ih =>
    cases ha : f a <;> simp [List.findSome?_cons, ha, ih]

theorem alookup_isSome_iff {α : Type} (k : String) (m : List (String × α)) :
    (alookup k m).isSome ↔ k ∈ m.map Prod.fst := by
  cases h : alookup k m with
  | none => simpa using alookup_eq_none_iff.mp h
  | some v =>
    simp only [Option.isSome_some, true_iff]
    have := alookup_mem h
    exact List.mem_map_of_mem Prod.fst this

theorem alookup_foldl_dictUpdate {α : Type} (k : String) (ps : List (List (String × α))) :
    ∀ p0 : List (String × α), (∀ p ∈ ps, (p.map Prod.fst).Nodup) →
      alookup k (ps.foldl dictUpdate p0) =
        match ps.reverse.findSome? (fun p => alookup k p) with
        | some v => some v
        | none => alookup k p0 := by
  induction ps using List.reverseRecOn with
  | nil => intro p0 _; simp
  | append_singleton rest p ihp =>
    intro p0 hnd
    rw [List.foldl_append, List.foldl_cons, List.foldl_nil, alookup_dictUpdate,
        alookup_reverse_of_nodup (hnd p (by simp)), List.reverse_append,
        ihp p0 (fun q hq => hnd q (by simp [hq]))]
    cases hp : alookup k p <;> simp [List.findSome?_cons, hp]

theorem collapseTeam_roster_lookup {fl : List TeamData} (h : fl ≠ [])
    (hnd : ∀ td ∈ fl, (td.players.map Prod.fst).Nodup) (k : String) :
    alookup k (collapseG mergeTeamData id fl).players = lastWriteWins k fl := by
  cases fl with
  | nil => exact absurd rfl h
  | cons b0 rest =>
    have hpl : (collapseG mergeTeamData id (b0 :: rest)).players
        = (rest.map (fun td => td.players)).foldl dictUpdate b0.players := by
      simp [collapseG, foldl_mergeTeamData_players]
    rw [hpl, alookup_foldl_dictUpdate k _ b0.players
      (by
        intro p hp
        obtain ⟨td, htd, hrfl⟩ := List.mem_map.mp hp
        subst hrfl
        exact hnd td (by simp [htd]))]
    unfold lastWriteWins
    rw [List.reverse_cons, ← List.map_reverse, List.findSome?_map, findSome?_append]
    cases hfs : rest.reverse.findSome? (fun td => alookup k td.players) with
    | some v => simp [Function.comp_def, hfs]
    | none =>
      simp only [Function.comp_def, hfs, List.findSome?_cons]
      cases hb0 : alookup k b0.players <;> simp [hb0]

/-! # Dashboard index helpers -/

theorem alookup_insertAllConst {α γ : Type} (k : String) (nm : α) (ps : List (String × γ)) :
    ∀ idx : List (String × α),
      alookup k (ps.foldl (fun idx2 kv => dictInsert idx2 kv.1 nm) idx) =
        if k ∈ ps.map Prod.fst then some nm else alookup k idx := by
  induction ps with
  | nil => intro idx; simp
  | cons kv rest ih =>
    intro idx
    rw [List.foldl_cons, ih]
    by_cases hmem : k ∈ rest.map Prod.fst
    · simp [hmem]
    · by_cases hk : kv.1 = k
      · simp [hmem, hk, alookup_dictInsert]
      · have hk2 : ¬k = kv.1 := fun he => hk he.symm
        simp [hmem, hk, hk2, alookup_dictInsert]

theorem alookup_buildFedIdToTeam (teams : List TeamData) (fid : String) :
    alookup fid (buildFedIdToTeam teams) = lastTeamContaining fid teams := by
  induction teams using List.reverseRecOn with
  | nil => simp [buildFedIdToTeam, lastTeamContaining, alookup]
  | append_singleton rest t ih =>
    have hb : buildFedIdToTeam (rest ++ [t])
        = t.players.foldl (fun idx2 kv => dictInsert idx2 kv.1 t.name) (buildFedIdToTeam rest) := by
      simp [buildFedIdToTeam, List.foldl_append]
    have h2 := alookup_insertAllConst fid t.name t.players (buildFedIdToTeam rest)
    rw [hb, h2, ih]
    unfold lastTeamContaining
    rw [List.reverse_append]
    simp only [List.reverse_singleton, List.singleton_append, List.findSome?_cons]
    by_cases hmem : fid ∈ t.players.map Prod.fst
    · have : (alookup fid t.players).isSome := (alookup_isSome_iff fid t.players).mpr hmem
      simp [hmem, this]
    · have : ¬(alookup fid t.players).isSome := fun hs =>
        hmem ((alookup_isSome_iff fid t.players).mp hs)
      simp [hmem, this]

/-! # Historical-ratings fold helpers -/

theorem histFold_mem (today : CivDate) (l : List RatingEntry) :
    ∀ (acc : List (String × Int)) (kr : String × Int), kr ∈ l.foldl (histStep today) acc →
      kr ∈ acc ∨ ∃ e ∈ l, ∃ d, e.moment = some d ∧ inWindow today d
        ∧ periodKey d = kr.1 ∧ e.rating = some kr.2 := by
  induction l with
  | nil => intro acc kr h; exact Or.inl h
  | cons e rest ih =>
    intro acc kr h
    rw [List.foldl_cons] at h
    rcases ih (histStep today acc e) kr h with hacc | ⟨e1, he1, d1, hd1⟩
    · cases hm : e.moment with
      | none =>
        simp only [histStep, hm] at hacc
        exact Or.inl hacc
      | some d =>
        by_cases hw : inWindow today d
        · cases hr : e.rating with
          | none =>
            simp only [histStep, hm, if_pos hw, hr] at hacc
            exact Or.inl hacc
          | some r =>
            by_cases hlk : (alookup (periodKey d) acc).isNone
            · simp only [histStep, hm, if_pos hw, hr, hlk, if_pos] at hacc
              rcases List.mem_append.mp hacc with h1 | h1
              · exact Or.inl h1
              · simp only [List.mem_singleton] at h1
                subst h1
                exact Or.inr ⟨e, List.mem_cons_self e rest, d, hm, hw, rfl, hr⟩
            · simp only [histStep, hm, if_pos hw, hr, hlk, if_neg, Bool.false_eq_true] at hacc
              exact Or.inl hacc
        · simp only [histStep, hm, if_neg hw] at hacc
          exact Or.inl hacc
    · exact Or.inr ⟨e1, List.mem_cons_of_mem e he1, d1, hd1⟩

theorem histFold_keys_nodup (today : CivDate) (l : List RatingEntry) :
    ∀ acc : List (String × Int), ((acc.map Prod.fst).Nodup) →
      (((l.foldl (histStep today) acc).map Prod.fst).Nodup) := by
  induction l with
  | nil => intro acc h; exact h
  | cons e rest ih =>
    intro acc h
    rw [List.foldl_cons]
    apply ih
    cases hm : e.moment with
    | none => simpa [histStep, hm] using h
    | some d =>
      by_cases hw : inWindow today d
      · cases hr : e.rating with
        | none => simpa [histStep, hm, if_pos hw, hr] using h
        | some r =>
          by_cases hlk : (alookup (periodKey d) acc).isNone
          · simp only [histStep, hm, if_pos hw, hr, hlk, if_pos]
            have hnotin : periodKey d ∉ acc.map Prod.fst := by
              rw [← alookup_eq_none_iff (k := periodKey d) (m := acc)]
              exact Option.isNone_iff_eq_none.mp hlk
            simp [List.nodup_append, h, hnotin]
          · simpa [histStep, hm, if_pos hw, hr, hlk] using h
      · simpa [histStep, hm, if_neg hw] using h

theorem histFold_lookup (today : CivDate) (l : List RatingEntry) :
    ∀ (acc : List (String × Int)) (k : String),
      alookup k (l.foldl (histStep today) acc) =
        match alookup k acc with
        | some v => some v
        | none => firstRatingFor today l k := by
  induction l with
  | nil =>
    intro acc k
    cases h : alookup k acc <;> simp [firstRatingFor, h]
  | cons e rest ih =>
    intro acc k
    rw [List.foldl_cons, ih]
    cases hm : e.moment with
    | none =>
      simp only [histStep, hm]
      have hfr : firstRatingFor today (e :: rest) k = firstRatingFor today rest k := by
        simp [firstRatingFor, List.findSome?_cons, hm]
      rw [hfr]
    | some d =>
      by_cases hw : inWindow today d
      · cases hr : e.rating with
        | none =>
          simp only [histStep, hm, if_pos hw, hr]
          have hfr : firstRatingFor today (e :: rest) k = firstRatingFor today rest k := by
            simp [firstRatingFor, List.findSome?_cons, hm, hr]
          rw [hfr]
        | some r =>
          cases hacc0 : alookup (periodKey d) acc with
          | none =>
            have hstep : histStep today acc e = acc ++ [(periodKey d, r)] := by
              simp [histStep, hm, hw, hr, hacc0]
            rw [hstep]
            by_cases hk : periodKey d = k
            · subst hk
              have h1 : alookup (periodKey d) (acc ++ [(periodKey d, r)]) = some r := by
                rw [alookup_append, hacc0, alookup_singleton]
                simp
              have hfr : firstRatingFor today (e :: rest) (periodKey d) = some r := by
                simp [firstRatingFor, List.findSome?_cons, hm, hr, hw]
              rw [h1, hacc0, hfr]
            · have h1 : alookup k (acc ++ [(periodKey d, r)]) = alookup k acc := by
                rw [alookup_append, alookup_singleton, if_neg hk]
                cases hacc : alookup k acc <;> simp [hacc]
              have hfr : firstRatingFor today (e :: rest) k = firstRatingFor today rest k := by
                simp [firstRatingFor, List.findSome?_cons, hm, hr, hk]
              rw [h1, hfr]
          | some v =>
            have hstep : histStep today acc e = acc := by
              simp [histStep, hm, hw, hr, hacc0]
            rw [hstep]
            by_cases hk : periodKey d = k
            · subst hk
              simp [hacc0]
            · have hfr : firstRatingFor today (e :: rest) k = firstRatingFor today rest k := by
                simp [firstRatingFor, List.findSome?_cons, hm, hr, hk]
              rw [hfr]
      · simp only [histStep, hm, if_neg hw]
        have hfr : firstRatingFor today (e :: rest) k = firstRatingFor today rest k := by
          cases hr : e.rating with
          | none => simp [firstRatingFor, List.findSome?_cons, hm, hr]
          | some r => simp [firstRatingFor, List.findSome?_cons, hm, hr, hw]
        rw [hfr]

/-! # Fixture-loop helpers -/

theorem scrapeOpp_table (t : PairingTable) (nm : String) :
    scrapeOppRatingFromPairings (some { resultsTable := some t }) nm
      = match t.tbodyLinks with
        | none => .error ()
        | some participants =>
          if !participants.isEmpty && participants.all (fun s => s == "NN") then .ok none
          else
            match t.theadLinks with
            | none => .error ()
            | some headerTeams =>
              match headerTeams.findIdx? (fun s => s == nm) with
              | none => .ok none
              | some i => .ok ((t.footerRatings.get? i).bind id) := rfl

theorem except_toOption_eq_some {e a : Type} {x : Except e a} {v : a} :
    x.toOption = some v ↔ x = .ok v := by
  cases x with
  | error err => simp [Except.toOption]
  | ok w => simp [Except.toOption]

theorem fixtureStep_skip (nm : String) (row : FixtureRow)
    (h : scrapeOppRatingFromPairings row.pairingDoc (oppNameOf nm row) = .ok none) :
    ∀ acc, fixtureStep nm acc row = acc := by
  intro acc
  cases acc with
  | error e => rfl
  | ok a =>
    unfold fixtureStep
    dsimp only
    by_cases hc : row.cells.length ≠ 5
    · rw [if_pos hc]
    · rw [if_neg hc]
      cases hh : row.pairingHref with
      | none => rfl
      | some sv => simp [h]

theorem fixtureFold_skip (nm : String) (pre post : List FixtureRow) (row : FixtureRow)
    (h : scrapeOppRatingFromPairings row.pairingDoc (oppNameOf nm row) = .ok none)
    (acc : Except Unit (List MatchRec × List Int)) :
    (pre ++ row :: post).foldl (fixtureStep nm) acc = (pre ++ post).foldl (fixtureStep nm) acc := by
  rw [List.foldl_append, List.foldl_append, List.foldl_cons, fixtureStep_skip nm row h]

theorem fixtureStep_length (nm : String) (acc : Except Unit (List MatchRec × List Int))
    (row : FixtureRow)
    (h : ∀ mr, acc = .ok mr → mr.1.length = mr.2.length) :
    ∀ mr, fixtureStep nm acc row = .ok mr → mr.1.length = mr.2.length := by
  cases acc with
  | error e => intro mr hmr; exact Except.noConfusion hmr
  | ok a =>
    have ha := h a rfl
    intro mr hmr
    unfold fixtureStep at hmr
    dsimp only at hmr
    by_cases hc : row.cells.length ≠ 5
    · rw [if_pos hc] at hmr
      exact (Except.ok.inj hmr) ▸ ha
    · rw [if_neg hc] at hmr
      cases hh : row.pairingHref with
      | none => rw [hh] at hmr; exact (Except.ok.inj hmr) ▸ ha
      | some sv =>
        rw [hh] at hmr
        dsimp only at hmr
        cases hr : scrapeOppRatingFromPairings row.pairingDoc (oppNameOf nm row) with
        | error e => rw [hr] at hmr; exact Except.noConfusion hmr
        | ok o =>
          rw [hr] at hmr
          cases o with
          | none => exact (Except.ok.inj hmr) ▸ ha
          | some r =>
            dsimp only at hmr
            by_cases hz : r = 0
            · rw [if_pos hz] at hmr
              exact (Except.ok.inj hmr) ▸ ha
            · rw [if_neg hz] at hmr
              rw [← Except.ok.inj hmr]
              simp [ha]

theorem fixtureFold_length (nm : String) (rows : List FixtureRow) :
    ∀ acc : Except Unit (List MatchRec × List Int),
      (∀ mr, acc = .ok mr → mr.1.length = mr.2.length) →
      ∀ mr, rows.foldl (fixtureStep nm) acc = .ok mr → mr.1.length = mr.2.length := by
  induction rows with
  | nil => intro acc h mr hmr; exact h mr hmr
  | cons r rest ih =>
    intro acc h mr hmr
    rw [List.foldl_cons] at hmr
    exact ih _ (fixtureStep_length nm acc r h) mr hmr

theorem scrapeTeamPage_lengths (inst : TeamInstance) (page : Option TeamPage) :
    ∀ t, scrapeTeamPage inst page = .ok t →
      t.matchList.length = t.opponent_ratings_raw.length := by
  intro t ht
  cases page with
  | none =>
    unfold scrapeTeamPage at ht
    cases Except.ok.inj ht
    rfl
  | some p =>
    unfold scrapeTeamPage at ht
    dsimp only at ht
    cases hrr : p.rosterRows with
    | none =>
      rw [hrr] at ht
      cases hfr : p.fixtureRows with
      | none => rw [hfr] at ht; cases Except.ok.inj ht; rfl
      | some rows =>
        rw [hfr] at ht
        dsimp only at ht
        cases hf : rows.foldl (fixtureStep inst.name) (.ok ([], [])) with
        | error e => rw [hf] at ht; exact Except.noConfusion ht
        | ok mr =>
          rw [hf] at ht
          cases Except.ok.inj ht
          exact fixtureFold_length inst.name rows (.ok ([], []))
            (fun mr0 h0 => by rw [← Except.ok.inj h0]; rfl) mr hf
    | some rrows =>
      rw [hrr] at ht
      cases hfr : p.fixtureRows with
      | none => rw [hfr] at ht; cases Except.ok.inj ht; rfl
      | some rows =>
        rw [hfr] at ht
        dsimp only at ht
        cases hf : rows.foldl (fixtureStep inst.name) (.ok ([], [])) with
        | error e => rw [hf] at ht; exact Except.noConfusion ht
        | ok mr =>
          rw [hf] at ht
          cases Except.ok.inj ht
          exact fixtureFold_length inst.name rows (.ok ([], []))
            (fun mr0 h0 => by rw [← Except.ok.inj h0]; rfl) mr hf

theorem scrapeTeamPage_name (inst : TeamInstance) (page : Option TeamPage) :
    ∀ t, scrapeTeamPage inst page = .ok t → t.name = inst.name := by
  intro t ht
  cases page with
  | none =>
    unfold scrapeTeamPage at ht
    cases Except.ok.inj ht
    rfl
  | some p =>
    unfold scrapeTeamPage at ht
    dsimp only at ht
    cases hrr : p.rosterRows with
    | none =>
      rw [hrr] at ht
      cases hfr : p.fixtureRows with
      | none => rw [hfr] at ht; cases Except.ok.inj ht; rfl
      | some rows =>
        rw [hfr] at ht
        dsimp only at ht
        cases hf : rows.foldl (fixtureStep inst.name) (.ok ([], [])) with
        | error e => rw [hf] at ht; exact Except.noConfusion ht
        | ok mr => rw [hf] at ht; cases Except.ok.inj ht; rfl
    | some rrows =>
      rw [hrr] at ht
      cases hfr : p.fixtureRows with
      | none => rw [hfr] at ht; cases Except.ok.inj ht; rfl
      | some rows =>
        rw [hfr] at ht
        dsimp only at ht
        cases hf : rows.foldl (fixtureStep inst.name) (.ok ([], [])) with
        | error e => rw [hf] at ht; exact Except.noConfusion ht
        | ok mr => rw [hf] at ht; cases Except.ok.inj ht; rfl

theorem scrapeTeamPage_fixture_skip (inst : TeamInstance) (p : TeamPage)
    (pre post : List FixtureRow) (row : FixtureRow)
    (h : scrapeOppRatingFromPairings row.pairingDoc (oppNameOf inst.name row) = .ok none) :
    scrapeTeamPage inst (some { p with fixtureRows := some (pre ++ row :: post) })
      = scrapeTeamPage inst (some { p with fixtureRows := some (pre ++ post) }) := by
  unfold scrapeTeamPage
  dsimp only
  rw [fixtureFold_skip inst.name pre post row h]

/-! # Lookup characterisations of the two aggregation passes -/

theorem runTeamAggregation_lookup {l : List TeamData} {n : String} {t : TeamData}
    (h : alookup n (runTeamAggregation l) = some t) :
    l.filter (fun td => td.name = n) ≠ []
  ∧ t.matchList = ((l.filter (fun td => td.name = n)).map (fun td => td.matchList)).join
  ∧ t.opponent_ratings_raw
      = ((l.filter (fun td => td.name = n)).map (fun td => td.opponent_ratings_raw)).join
  ∧ t.players = (collapseG mergeTeamData id (l.filter (fun td => td.name = n))).players
  ∧ t.avg_opponent_rating
      = (if t.opponent_ratings_raw = [] then 0 else ratMean t.opponent_ratings_raw) := by
  rw [alookup_runTeamAggregation, alookup_aggregateTeams] at h
  by_cases hmem : n ∈ firstKeysG teamObsKey l
  · rw [if_pos hmem] at h
    have ht : t
        = recomputeAvgTeam (collapseG mergeTeamData id (l.filter (fun td => td.name = n))) :=
      (Option.some.inj h).symm
    have hne : l.filter (fun td => td.name = n) ≠ [] := by
      have h1 := filter_ne_nil_of_mem_firstKeysG teamObsKey hmem
      rwa [teamFilter_eq] at h1
    obtain ⟨hm, hr, hp⟩ :=
      recomputeAvgTeam_fields (collapseG mergeTeamData id (l.filter (fun td => td.name = n)))
    subst ht
    refine ⟨hne, ?_, ?_, hp, ?_⟩
    · rw [hm, collapseTeam_matchList hne]
    · rw [hr, collapseTeam_raw hne]
    · rw [recomputeAvgTeam_avg, hr]
  · rw [if_neg hmem] at h
    exact Option.noConfusion h

theorem runPlayerAggregation_lookup {l : List PlayerData} {u : String} {p : PlayerData}
    (h : alookup u (runPlayerAggregation l) = some p) :
    l.filter (fun pd => playerObsKeyAmended pd = some u) ≠ []
  ∧ p.federation_ids
      = (l.filter (fun pd => playerObsKeyAmended pd = some u)).map (fun pd => pd.federation_id)
  ∧ p.opponent_ratings_raw
      = ((l.filter (fun pd => playerObsKeyAmended pd = some u)).map
          (fun pd => pd.opponent_ratings_raw)).join
  ∧ p.total_score
      = ((l.filter (fun pd => playerObsKeyAmended pd = some u)).map
          (fun pd => pd.total_score)).sum
  ∧ p.avg_opponent_rating
      = (if p.opponent_ratings_raw = [] then 0 else ratMean p.opponent_ratings_raw) := by
  rw [alookup_runPlayerAggregation, alookup_aggregatePlayers] at h
  by_cases hmem : u ∈ firstKeysG playerObsKeyAmended l
  · rw [if_pos hmem] at h
    have hp : p = recomputeAvgPlayer (collapseG mergePlayerData seedPlayer
        (l.filter (fun pd => playerObsKeyAmended pd = some u))) :=
      (Option.some.inj h).symm
    have hne : l.filter (fun pd => playerObsKeyAmended pd = some u) ≠ [] :=
      filter_ne_nil_of_mem_firstKeysG playerObsKeyAmended hmem
    obtain ⟨hr, hf, hs⟩ := recomputeAvgPlayer_fields (collapseG mergePlayerData seedPlayer
      (l.filter (fun pd => playerObsKeyAmended pd = some u)))
    obtain ⟨cf, cr, cs⟩ := collapsePlayer_fields hne
    subst hp
    refine ⟨hne, ?_, ?_, ?_, ?_⟩
    · rw [hf, cf]
    · rw [hr, cr]
    · rw [hs, cs]
    · rw [recomputeAvgPlayer_avg, hr]
  · rw [if_neg hmem] at h
    exact Option.noConfusion h

theorem keys_runTeamAggregation (l : List TeamData) :
    (runTeamAggregation l).map Prod.fst = firstKeysG teamObsKey l := by
  unfold runTeamAggregation
  rw [aggregateTeams_eq_aggG, aggG_eq_refAggG]
  unfold refAggG
  rw [List.map_map, List.map_map]
  simp [Function.comp_def]

theorem alookup_map_keyed {α γ : Type} (g : String → α → γ) (k : String)
    (m : List (String × α)) :
    alookup k (m.map (fun kv => (kv.1, g kv.1 kv.2))) = (alookup k m).map (g k) := by
  induction m with
  | nil => simp [alookup]
  | cons kv rest ih =>
    by_cases h : kv.1 = k <;> simp [alookup, h, ih]

theorem repairMode_eq (loaded : List (String × TeamData)) (discovered : List TeamInstance)
    (fetch : TeamInstance → Option TeamPage) :
    repairMode loaded discovered fetch
      = loaded.map (fun kv =>
          (kv.1,
            match (repairSuccesses loaded discovered fetch).find? (fun t1 => t1.name = kv.1) with
            | some t1 => t1
            | none => kv.2)) := by
  unfold repairMode repairSuccesses failedNamesOf
  apply List.map_congr_left
  intro kv _
  cases hfind : (((discovered.filter (fun i =>
      (((loaded.filter (fun kv => isFailedTeam kv.2)).map Prod.fst)).contains i.name)).filterMap
      (fun i => (scrapeTeamPage i (fetch i)).toOption)).filter
      (fun t => !isFailedTeam t)).find? (fun t1 => t1.name = kv.1) with
  | some t1 => simp [hfind]
  | none => simp [hfind]

/-! # Claim theorems -/

/-- C1: after the merge/aggregation step of `run_scraper`, every aggregated Team and
every aggregated Player carries `avg_opponent_rating` equal to the arithmetic mean
of its `opponent_ratings_raw` when that list is non-empty and `0` when it is empty;
and that raw list is the concatenation of the merged records' raw lists, so the
average is recomputed from the raw list after merging, never incrementally
averaged. -/
theorem claim1_avg_recomputed :
    (∀ (l : List TeamData) (n : String) (t : TeamData),
        alookup n (runTeamAggregation l) = some t →
          t.opponent_ratings_raw
              = ((l.filter (fun td => td.name = n)).map (fun td => td.opponent_ratings_raw)).join
            ∧ t.avg_opponent_rating
              = (if t.opponent_ratings_raw = [] then 0 else ratMean t.opponent_ratings_raw))
  ∧ (∀ (l : List PlayerData) (u : String) (p : PlayerData),
        alookup u (runPlayerAggregation l) = some p →
          p.opponent_ratings_raw
              = ((l.filter (fun pd => playerObsKeyAmended pd = some u)).map
                  (fun pd => pd.opponent_ratings_raw)).join
            ∧ p.avg_opponent_rating
              = (if p.opponent_ratings_raw = [] then 0 else ratMean p.opponent_ratings_raw)) := by
  constructor
  · intro l n t h
    obtain ⟨_, _, hr, _, ha⟩ := runTeamAggregation_lookup h
    exact ⟨hr, ha⟩
  · intro l u p h
    obtain ⟨_, _, hr, _, ha⟩ := runPlayerAggregation_lookup h
    exact ⟨hr, ha⟩

/-- Witness for C1 on the sample data: the aggregated "CLUB 1" team and the
aggregated player "900" both satisfy the mean invariant. -/
theorem claim1_witness :
    (demoAggTeam.opponent_ratings_raw
        = (([demoTeamA, demoTeamB].filter (fun td => td.name = "CLUB 1")).map
            (fun td => td.opponent_ratings_raw)).join
      ∧ demoAggTeam.avg_opponent_rating
        = (if demoAggTeam.opponent_ratings_raw = [] then 0 else ratMean demoAggTeam.opponent_ratings_raw))
  ∧ (demoAggPlayer.opponent_ratings_raw
        = (([demoObsA, demoObsB].filter (fun pd => playerObsKeyAmended pd = some "900")).map
            (fun pd => pd.opponent_ratings_raw)).join
      ∧ demoAggPlayer.avg_opponent_rating
        = (if demoAggPlayer.opponent_ratings_raw = [] then 0 else ratMean demoAggPlayer.opponent_ratings_raw)) :=
  ⟨claim1_avg_recomputed.1 [demoTeamA, demoTeamB] "CLUB 1" demoAggTeam rfl,
   claim1_avg_recomputed.2 [demoObsA, demoObsB] "900" demoAggPlayer rfl⟩

/-- C2: merging a record list that contains two or more team records with the same
name yields exactly one aggregated entry under that name; its match list and raw
rating list are the concatenations over those records in input order, and its
roster is the key-union of their rosters with last-write-wins on duplicate local
ids. -/
theorem claim2_team_merge (l : List TeamData) (n : String)
    (h2 : 2 ≤ (l.filter (fun td => td.name = n)).length)
    (hnd : ∀ td ∈ l, (td.players.map Prod.fst).Nodup) :
    ((runTeamAggregation l).map Prod.fst).count n = 1
  ∧ ∃ t, alookup n (runTeamAggregation l) = some t
      ∧ t.matchList = ((l.filter (fun td => td.name = n)).map (fun td => td.matchList)).join
      ∧ t.opponent_ratings_raw
          = ((l.filter (fun td => td.name = n)).map (fun td => td.opponent_ratings_raw)).join
      ∧ (∀ k, alookup k t.players = lastWriteWins k (l.filter (fun td => td.name = n)))
      ∧ (∀ k, (alookup k t.players).isSome
            ↔ ∃ td ∈ l.filter (fun td => td.name = n), (alookup k td.players).isSome) := by
  have hne : l.filter (fun td => td.name = n) ≠ [] := by
    intro hnil
    rw [hnil] at h2
    simp at h2
  have hmem : n ∈ firstKeysG teamObsKey l := by
    rw [mem_firstKeysG]
    obtain ⟨td, htd⟩ := List.exists_mem_of_ne_nil _ hne
    obtain ⟨hl, hname⟩ := List.mem_filter.mp htd
    exact ⟨td, hl, by simp [teamObsKey, of_decide_eq_true hname]⟩
  have hlook : alookup n (runTeamAggregation l)
      = some (recomputeAvgTeam (collapseG mergeTeamData id
          (l.filter (fun td => td.name = n)))) := by
    rw [alookup_runTeamAggregation, alookup_aggregateTeams, if_pos hmem]
    rfl
  obtain ⟨_, hm, hr, hp, _⟩ := runTeamAggregation_lookup hlook
  have hndf : ∀ td ∈ l.filter (fun td => td.name = n), (td.players.map Prod.fst).Nodup :=
    fun td htd => hnd td (List.mem_filter.mp htd).1
  constructor
  · rw [keys_runTeamAggregation]
    exact List.count_eq_one_of_mem (nodup_firstKeysG teamObsKey l) hmem
  · refine ⟨_, hlook, hm, hr, ?_, ?_⟩
    · intro k
      rw [hp, collapseTeam_roster_lookup hne hndf k]
    · intro k
      rw [hp, collapseTeam_roster_lookup hne hndf k]
      unfold lastWriteWins
      rw [findSome?_isSome_iff]
      simp [List.mem_reverse]

/-- Witness for C2 on the sample data: the two distinct "CLUB 1" records merge
into one entry with concatenated matches and ratings and a unioned roster. -/
theorem claim2_witness :
    ((runTeamAggregation [demoTeamA, demoTeamB]).map Prod.fst).count "CLUB 1" = 1
  ∧ ∃ t, alookup "CLUB 1" (runTeamAggregation [demoTeamA, demoTeamB]) = some t
      ∧ t.matchList = (([demoTeamA, demoTeamB].filter (fun td => td.name = "CLUB 1")).map
          (fun td => td.matchList)).join
      ∧ t.opponent_ratings_raw
          = (([demoTeamA, demoTeamB].filter (fun td => td.name = "CLUB 1")).map
              (fun td => td.opponent_ratings_raw)).join
      ∧ (∀ k, alookup k t.players
            = lastWriteWins k ([demoTeamA, demoTeamB].filter (fun td => td.name = "CLUB 1")))
      ∧ (∀ k, (alookup k t.players).isSome
            ↔ ∃ td ∈ [demoTeamA, demoTeamB].filter (fun td => td.name = "CLUB 1"),
                (alookup k td.players).isSome) :=
  claim2_team_merge [demoTeamA, demoTeamB] "CLUB 1" (by decide) (by decide)

/-- C3 counterexample: an observation whose universal id is the empty string is
dropped by the code (`if not uid:` is Python-falsy on the empty string), but the
claim's reference definition excludes only a missing/None id and would keep it;
the two definitions disagree on this concrete input. -/
theorem claim3_counterexample :
    aggregatePlayers [demoEmptyUidObs] ≠ referencePlayerAgg playerObsKeyRef [demoEmptyUidObs] := by
  decide

/-- C3 (amended): player aggregation equals the reference group-by description
once the excluded observations are those with a missing or empty-string universal
id; for each universal id, the first kept observation seeds the record with
`federation_ids = [its federation_id]`, and each later one appends its federation
id, adds its total score, and concatenates its raw ratings. -/
theorem claim3_amended_player_aggregation :
    (∀ l : List PlayerData, aggregatePlayers l = referencePlayerAgg playerObsKeyAmended l)
  ∧ (∀ (l : List PlayerData) (u : String) (p : PlayerData),
        alookup u (runPlayerAggregation l) = some p →
          p.federation_ids
              = (l.filter (fun pd => playerObsKeyAmended pd = some u)).map
                  (fun pd => pd.federation_id)
            ∧ p.total_score
              = ((l.filter (fun pd => playerObsKeyAmended pd = some u)).map
                  (fun pd => pd.total_score)).sum
            ∧ p.opponent_ratings_raw
              = ((l.filter (fun pd => playerObsKeyAmended pd = some u)).map
                  (fun pd => pd.opponent_ratings_raw)).join) := by
  constructor
  · intro l
    rw [aggregatePlayers_eq_aggG]
    exact aggG_eq_refAggG _ _ _ l
  · intro l u p h
    obtain ⟨_, hf, hr, hs, _⟩ := runPlayerAggregation_lookup h
    exact ⟨hf, hs, hr⟩

/-- Witness for C3 on the sample data: player "900" merges its two observations in
input order. -/
theorem claim3_witness :
    demoAggPlayer.federation_ids
        = ([demoObsA, demoObsB].filter (fun pd => playerObsKeyAmended pd = some "900")).map
            (fun pd => pd.federation_id)
  ∧ demoAggPlayer.total_score
        = (([demoObsA, demoObsB].filter (fun pd => playerObsKeyAmended pd = some "900")).map
            (fun pd => pd.total_score)).sum
  ∧ demoAggPlayer.opponent_ratings_raw
        = (([demoObsA, demoObsB].filter (fun pd => playerObsKeyAmended pd = some "900")).map
            (fun pd => pd.opponent_ratings_raw)).join :=
  claim3_amended_player_aggregation.2 [demoObsA, demoObsB] "900" demoAggPlayer rfl

/-- C4 counterexample: federation id "101" lies on the rosters of both team "A"
and team "B", and the player's id list contains it, yet "A" is absent from the
computed team set: the inverse index maps each id to a single (the last) team, so
the result is not "exactly the distinct team names whose rosters contain any of
those ids". -/
theorem claim4_counterexample :
    (alookup "101" demoIdxTeamA.players).isSome = true
  ∧ demoIdxTeamA.name = "A"
  ∧ "101" ∈ ["101"]
  ∧ "A" ∉ getTeamsForPlayer (buildFedIdToTeam [demoIdxTeamA, demoIdxTeamB]) ["101"] := by
  decide

/-- C4 (amended): the inverse index maps each federation id to the last team, in
input order, whose roster contains it; a player's team set is exactly the set of
index images of its federation ids - non-empty as soon as one id resolves - and
the sentinel `{"Unknown"}` exactly when no id resolves. -/
theorem claim4_amended_team_resolution (teams : List TeamData) (fedIds : List String) :
    (∀ fid, alookup fid (buildFedIdToTeam teams) = lastTeamContaining fid teams)
  ∧ ((∃ fid ∈ fedIds, (lastTeamContaining fid teams).isSome) →
        getTeamsForPlayer (buildFedIdToTeam teams) fedIds ≠ ∅
      ∧ ∀ nm, nm ∈ getTeamsForPlayer (buildFedIdToTeam teams) fedIds
            ↔ ∃ fid ∈ fedIds, lastTeamContaining fid teams = some nm)
  ∧ ((∀ fid ∈ fedIds, lastTeamContaining fid teams = none) →
        getTeamsForPlayer (buildFedIdToTeam teams) fedIds = {"Unknown"}) := by
  have hidx : ∀ fid, alookup fid (buildFedIdToTeam teams) = lastTeamContaining fid teams :=
    fun fid => alookup_buildFedIdToTeam teams fid
  refine ⟨hidx, ?_, ?_⟩
  · rintro ⟨fid0, hfid0, hs0⟩
    have hmem0 : ∃ nm, nm ∈ fedIds.filterMap (fun fid => alookup fid (buildFedIdToTeam teams)) := by
      obtain ⟨nm, hnm⟩ := Option.isSome_iff_exists.mp hs0
      exact ⟨nm, List.mem_filterMap.mpr ⟨fid0, hfid0, by rw [hidx fid0, hnm]⟩⟩
    have hsne : (fedIds.filterMap (fun fid => alookup fid (buildFedIdToTeam teams))).toFinset ≠ ∅ := by
      obtain ⟨nm, hnm⟩ := hmem0
      intro hempty
      have hmemf := List.mem_toFinset.mpr hnm
      rw [hempty] at hmemf
      simp at hmemf
    constructor
    · simp only [getTeamsForPlayer]
      rw [if_neg hsne]
      exact hsne
    · intro nm
      simp only [getTeamsForPlayer]
      rw [if_neg hsne, List.mem_toFinset, List.mem_filterMap]
      constructor
      · rintro ⟨fid, hfid, hl⟩
        exact ⟨fid, hfid, by rwa [hidx fid] at hl⟩
      · rintro ⟨fid, hfid, hl⟩
        exact ⟨fid, hfid, by rwa [hidx fid]⟩
  · intro hall
    have hfm : fedIds.filterMap (fun fid => alookup fid (buildFedIdToTeam teams)) = [] := by
      rw [List.filterMap_eq_nil]
      intro fid hfid
      rw [hidx fid]
      exact hall fid hfid
    simp only [getTeamsForPlayer]
    rw [hfm]
    simp

/-- Witness for C4: on the duplicate-roster sample, the resolved team set is
non-empty and each member is the index image of a federation id. -/
theorem claim4_witness :
    getTeamsForPlayer (buildFedIdToTeam [demoIdxTeamA, demoIdxTeamB]) ["101"] ≠ ∅
  ∧ ∀ nm, nm ∈ getTeamsForPlayer (buildFedIdToTeam [demoIdxTeamA, demoIdxTeamB]) ["101"]
        ↔ ∃ fid ∈ ["101"], lastTeamContaining fid [demoIdxTeamA, demoIdxTeamB] = some nm :=
  (claim4_amended_team_resolution [demoIdxTeamA, demoIdxTeamB] ["101"]).2.1 (by decide)

/-- Counterexample for C5: contrary to the claim, the pairing extractor does not
return a non-erroring outcome on every structural mismatch: a results table
without a `tbody` raises an uncaught `AttributeError` (only the footer lookup is
inside the source `try`), as does a non-ghost table without a `thead`, and the
error propagates out of the team extractor instead of the fixture being
discarded. -/
theorem claim5_counterexample :
    scrapeOppRatingFromPairings (some { resultsTable := some demoNoTbodyTable }) "OPP"
      = .error ()
  ∧ scrapeOppRatingFromPairings (some { resultsTable := some demoNoTbodyTable }) "OPP"
      ≠ .ok none
  ∧ scrapeOppRatingFromPairings (some { resultsTable := some demoNoTheadTable }) "OPP"
      = .error ()
  ∧ scrapeTeamPage demoInstA (some { demoTeamPage with fixtureRows := some [demoNoTbodyRow] })
      = .error () :=
  ⟨rfl, fun h => Except.noConfusion h, rfl, rfl⟩

/-- C5 (amended): a pairing page whose listed participants (there is at least one,
held by a present `tbody`) are all the ghost placeholder `NN` resolves to `.ok
none`; a missing page, a missing results table, and an unmatched opponent column
(with `tbody` and `thead` present) also resolve to `.ok none`; a fixture row
whose pairing resolves `.ok none` contributes neither a Match nor a rating - the
team record equals the one scraped with that row absent; but a results table
lacking a `tbody`, or a non-ghost one lacking a `thead`, makes the extractor
raise (`.error ()`), because only the footer lookup sits inside the source
`try`. -/
theorem claim5_amended_ghost_and_unresolved_discard :
    (∀ (parts : List String) (t : PairingTable) (nm : String),
        t.tbodyLinks = some parts → parts ≠ [] → (∀ s ∈ parts, s = "NN") →
        scrapeOppRatingFromPairings (some { resultsTable := some t }) nm = .ok none)
  ∧ (∀ nm, scrapeOppRatingFromPairings none nm = .ok none)
  ∧ (∀ nm, scrapeOppRatingFromPairings (some { resultsTable := none }) nm = .ok none)
  ∧ (∀ (parts heads : List String) (t : PairingTable) (nm : String),
        t.tbodyLinks = some parts → t.theadLinks = some heads →
        heads.findIdx? (fun s => s == nm) = none →
        scrapeOppRatingFromPairings (some { resultsTable := some t }) nm = .ok none)
  ∧ (∀ (inst : TeamInstance) (p : TeamPage) (pre post : List FixtureRow) (row : FixtureRow),
        scrapeOppRatingFromPairings row.pairingDoc (oppNameOf inst.name row) = .ok none →
        scrapeTeamPage inst (some { p with fixtureRows := some (pre ++ row :: post) })
          = scrapeTeamPage inst (some { p with fixtureRows := some (pre ++ post) }))
  ∧ (∀ (t : PairingTable) (nm : String), t.tbodyLinks = none →
        scrapeOppRatingFromPairings (some { resultsTable := some t }) nm = .error ())
  ∧ (∀ (parts : List String) (t : PairingTable) (nm : String),
        t.tbodyLinks = some parts →
        ¬(parts ≠ [] ∧ ∀ s ∈ parts, s = "NN") →
        t.theadLinks = none →
        scrapeOppRatingFromPairings (some { resultsTable := some t }) nm = .error ()) := by
  refine ⟨?_, fun nm => rfl, fun nm => rfl, ?_, ?_, ?_, ?_⟩
  · intro parts t nm htb hne hall
    rw [scrapeOpp_table, htb]
    have hghost : (!parts.isEmpty && parts.all (fun s => s == "NN")) = true := by
      rw [Bool.and_eq_true]
      constructor
      · simp [List.isEmpty_iff, hne]
      · rw [List.all_eq_true]
        intro s hs
        simpa using hall s hs
    simp [hghost]
  · intro parts heads t nm htb hth hidx
    rw [scrapeOpp_table, htb]
    dsimp only
    by_cases hg : (!parts.isEmpty && parts.all (fun s => s == "NN")) = true
    · simp [hg]
    · simp [hg, hth, hidx]
  · exact fun inst p pre post row h => scrapeTeamPage_fixture_skip inst p pre post row h
  · intro t nm htb
    rw [scrapeOpp_table, htb]
  · intro parts t nm htb hng hth
    rw [scrapeOpp_table, htb]
    dsimp only
    have hg : (!parts.isEmpty && parts.all (fun s => s == "NN")) = false := by
      cases hgb : (!parts.isEmpty && parts.all (fun s => s == "NN")) with
      | false => rfl
      | true =>
        exfalso
        rw [Bool.and_eq_true] at hgb
        refine hng ⟨?_, ?_⟩
        · intro hnil
          rw [hnil] at hgb
          simp at hgb
        · intro s hs
          simpa using (List.all_eq_true.mp hgb.2) s hs
    simp [hg, hth]

/-- Witness for C5: the sample ghost pairing resolves to `.ok none`, the sample
team page gives the same record with and without the ghost fixture row, and the
sample tbody-less table makes the extractor raise. -/
theorem claim5_witness :
    scrapeOppRatingFromPairings (some { resultsTable := some demoGhostTable }) "OPP" = .ok none
  ∧ scrapeTeamPage demoInstA
        (some { demoTeamPage with fixtureRows := some ([] ++ demoGhostRow :: []) })
      = scrapeTeamPage demoInstA
        (some { demoTeamPage with fixtureRows := some ([] ++ []) })
  ∧ scrapeOppRatingFromPairings (some { resultsTable := some demoNoTbodyTable }) "OPP"
      = .error () :=
  ⟨claim5_amended_ghost_and_unresolved_discard.1 ["NN", "NN"] demoGhostTable "OPP" rfl
     (by decide) (by decide),
   claim5_amended_ghost_and_unresolved_discard.2.2.2.2.1 demoInstA demoTeamPage [] []
     demoGhostRow rfl,
   claim5_amended_ghost_and_unresolved_discard.2.2.2.2.2.1 demoNoTbodyTable "OPP" rfl⟩

/-- C6: the historical-ratings extractor returns the empty mapping on a failed
request; its output is sorted ascending by the `YYYY-MM` key (String order, which
is lexicographic); every emitted bucket comes from an entry inside the trailing
12-month window with that month key; and each month key maps to the rating of the
first entry, in list order, that falls inside the window and in that month - so
duplicates within a month keep the first entry and out-of-window entries are
excluded, whatever the input order. -/
theorem claim6_historical_bucketing (today : CivDate) (entries : List RatingEntry) :
    fetchHistoricalRatings today none = []
  ∧ List.Sorted keyLe (fetchHistoricalRatings today (some entries))
  ∧ (∀ k r, (k, r) ∈ fetchHistoricalRatings today (some entries) →
        ∃ e ∈ entries, ∃ d, e.moment = some d ∧ inWindow today d ∧ periodKey d = k
          ∧ e.rating = some r)
  ∧ (∀ k, alookup k (fetchHistoricalRatings today (some entries))
        = firstRatingFor today entries k) := by
  refine ⟨rfl, ?_, ?_, ?_⟩
  · unfold fetchHistoricalRatings sortPairs
    exact List.sorted_insertionSort _ _
  · intro k r hmem
    unfold fetchHistoricalRatings sortPairs at hmem
    have hmem2 : (k, r) ∈ entries.foldl (histStep today) [] := by
      rwa [List.mem_insertionSort] at hmem
    rcases histFold_mem today entries [] (k, r) hmem2 with h0 | h1
    · simp at h0
    · exact h1
  · intro k
    unfold fetchHistoricalRatings sortPairs
    have hnd : ((entries.foldl (histStep today) []).map Prod.fst).Nodup :=
      histFold_keys_nodup today entries [] (by simp)
    have hperm := List.perm_insertionSort keyLe (entries.foldl (histStep today) [])
    have hnds : (((entries.foldl (histStep today) []).insertionSort
        keyLe).map Prod.fst).Nodup :=
      ((hperm.map Prod.fst).nodup_iff).mpr hnd
    rw [alookup_perm hperm hnds k, histFold_lookup today entries [] k]
    simp [alookup]

/-- Witness for C6: the 2025-06 bucket of the sample keeps the first-listed entry
(1500), which indeed comes from an in-window entry of that month. -/
theorem claim6_witness :
    ∃ e ∈ demoEntries, ∃ d, e.moment = some d ∧ inWindow demoToday d
      ∧ periodKey d = "2025-06" ∧ e.rating = some 1500 :=
  (claim6_historical_bucketing demoToday demoEntries).2.2.1 "2025-06" 1500 (by decide)

/-- C7 counterexample: with a write outcome where only the first file (teams)
fails while the other two would succeed, nothing at all is written: the single
`try` block aborts on the first failure, so a failure writing one file does
prevent the writing of the other collections. -/
theorem claim7_counterexample :
    persistCexOk "chess_division_data.json" = true
  ∧ persistCexOk "chess_player_data.json" = true
  ∧ (persistStage persistCexOk).written = []
  ∧ "chess_division_data.json" ∉ (persistStage persistCexOk).written := by
  decide

/-- C7 (amended): the three JSON collections are written sequentially inside one
error scope: the files actually written are the longest successful prefix of
(teams, divisions, players) - a failure is reported and aborts the remaining
writes, while files already written are kept (no rollback) - and an error is
reported exactly when some write fails. -/
theorem claim7_amended_persist (writeOk : String → Bool) :
    (persistStage writeOk).written = persistFileNames.takeWhile writeOk
  ∧ ((persistStage writeOk).errorReported = !persistFileNames.all writeOk)
  ∧ (∀ f ∈ (persistStage writeOk).written, writeOk f = true) := by
  cases h1 : writeOk "chess_team_data.json" <;>
    cases h2 : writeOk "chess_division_data.json" <;>
      cases h3 : writeOk "chess_player_data.json" <;>
        simp [persistStage, persistFileNames, h1, h2, h3, List.takeWhile]

/-- C8: each extractor, given the "no content" outcome of the fetcher, returns its
default record shape without raising - the team extractor returns on the
no-content path before any parsing, so its only non-`.ok` outcome is unreachable
there: the team default has empty matches, empty roster and zero points, the
division default is empty, and the player default has no universal id and no
games. -/
theorem claim8_no_content_defaults (inst : TeamInstance) (dk : String) (today : CivDate)
    (fid : String) :
    scrapeTeamPage inst none = .ok (defaultTeamData inst)
  ∧ scrapeDivisionPage dk none
      = { name := "", federation := dk.toUpper, teams := [], players := [] }
  ∧ scrapePlayerPage today fid none = defaultPlayerData fid
  ∧ (defaultTeamData inst).matchList = []
  ∧ (defaultTeamData inst).players = []
  ∧ (defaultTeamData inst).match_points = 0
  ∧ (scrapePlayerPage today fid none).universal_id = none
  ∧ (scrapePlayerPage today fid none).games = [] :=
  ⟨rfl, rfl, rfl, rfl, rfl, rfl, rfl, rfl⟩

/-- C9 (modelled from the spec, repair mode is not part of `src/`): repair mode
classifies a loaded team as failed exactly when its roster and match list are both
empty; every successful re-fetch is non-empty and scoped to a failed team name; a
loaded entry with no successful re-fetch of its name is kept unchanged; and a
loaded entry whose name has a successful re-fetch is replaced by the re-fetched
record. -/
theorem claim9_repair_mode (loaded : List (String × TeamData)) (discovered : List TeamInstance)
    (fetch : TeamInstance → Option TeamPage) :
    (∀ t : TeamData, isFailedTeam t = true ↔ (t.players = [] ∧ t.matchList = []))
  ∧ (∀ t1 ∈ repairSuccesses loaded discovered fetch,
        isFailedTeam t1 = false ∧ t1.name ∈ failedNamesOf loaded)
  ∧ (∀ n t, alookup n loaded = some t →
        (repairSuccesses loaded discovered fetch).find? (fun t1 => t1.name = n) = none →
        alookup n (repairMode loaded discovered fetch) = some t)
  ∧ (∀ n t t1, alookup n loaded = some t →
        (repairSuccesses loaded discovered fetch).find? (fun t1 => t1.name = n) = some t1 →
        alookup n (repairMode loaded discovered fetch) = some t1) := by
  refine ⟨?_, ?_, ?_, ?_⟩
  · intro t
    unfold isFailedTeam
    rw [Bool.and_eq_true]
    simp [List.isEmpty_iff]
  · intro t1 ht1
    unfold repairSuccesses at ht1
    obtain ⟨hmap, hok⟩ := List.mem_filter.mp ht1
    obtain ⟨i, hi, hrfl⟩ := List.mem_filterMap.mp hmap
    obtain ⟨hdisc, hcont⟩ := List.mem_filter.mp hi
    refine ⟨by simpa using hok, ?_⟩
    rw [scrapeTeamPage_name i (fetch i) t1 (except_toOption_eq_some.mp hrfl)]
    simpa using hcont
  · intro n t hln hfind
    have hmk := alookup_map_keyed
      (fun n0 v => match (repairSuccesses loaded discovered fetch).find?
          (fun t1 => t1.name = n0) with
        | some t1 => t1
        | none => v) n loaded
    rw [repairMode_eq, hmk, hln]
    simp [hfind]
  · intro n t t1 hln hfind
    have hmk := alookup_map_keyed
      (fun n0 v => match (repairSuccesses loaded discovered fetch).find?
          (fun t1 => t1.name = n0) with
        | some t1 => t1
        | none => v) n loaded
    rw [repairMode_eq, hmk, hln]
    simp [hfind]

/-- Witness for C9: the empty loaded team "E" is replaced by its successful
re-fetch. -/
theorem claim9_witness :
    alookup "E" (repairMode [("E", demoEmptyTeam)] [demoRepairInst] demoRepairFetch)
      = some demoRepairedTeam :=
  (claim9_repair_mode [("E", demoEmptyTeam)] [demoRepairInst] demoRepairFetch).2.2.2
    "E" demoEmptyTeam demoRepairedTeam rfl rfl

/-- C10: every team record the team extractor returns (every `.ok` outcome) has
exactly as many matches as raw opponent ratings (the two are appended together
per kept fixture), and the aggregation merge preserves the equality, so it holds
of every aggregated team. -/
theorem claim10_match_rating_lengths :
    (∀ (inst : TeamInstance) (page : Option TeamPage) (t : TeamData),
        scrapeTeamPage inst page = .ok t →
        t.matchList.length = t.opponent_ratings_raw.length)
  ∧ (∀ l : List TeamData,
        (∀ td ∈ l, td.matchList.length = td.opponent_ratings_raw.length) →
        ∀ n t, alookup n (runTeamAggregation l) = some t →
          t.matchList.length = t.opponent_ratings_raw.length) := by
  refine ⟨scrapeTeamPage_lengths, ?_⟩
  intro l hinv n t h
  obtain ⟨_, hm, hr, _, _⟩ := runTeamAggregation_lookup h
  rw [hm, hr, List.length_join, List.length_join, List.map_map, List.map_map]
  congr 1
  apply List.map_congr_left
  intro td htd
  simp only [Function.comp_apply]
  exact hinv td (List.mem_filter.mp htd).1

/-- Witness for C10: the extractor output on the sample page and the aggregated
sample team both satisfy the length equality. -/
theorem claim10_witness :
    demoScrapedTeam.matchList.length = demoScrapedTeam.opponent_ratings_raw.length
  ∧ demoLenAgg.matchList.length = demoLenAgg.opponent_ratings_raw.length :=
  ⟨claim10_match_rating_lengths.1 demoInstA (some demoTeamPage) demoScrapedTeam rfl,
   claim10_match_rating_lengths.2 [demoLenTeamA, demoLenTeamB] (by decide)
     "CLUB 1" demoLenAgg rfl⟩

end ChessScraper
